import Mathlib

/-!
Verification development for the mail-polling and token-lifecycle engine of
`gmail_oauth/__init__.py`.

The Python module is shallowly embedded below.  Pure helpers become Lean
functions; the effectful parts (Supabase store, Seen-Message ledger, provider
HTTP calls, webhook sink) are embedded as explicit state threading plus an
environment of oracles that fixes the outcome of each external call, and every
function additionally returns the list of observable events (network calls,
ledger writes, watermark updates) it performed, so that theorems can speak
about which side effects a code path does or does not execute.

Python exceptions are embedded as `Except Exc` values, with `Exc.kind`
recording which Python `except` clauses would catch them:
`runtimeError` for `RuntimeError`, `requestException` for
`requests.RequestException` (including `HTTPError` from `raise_for_status` and
the JSON decode errors `requests` wraps), and `otherError` for everything
neither of those clauses catches (`ValueError`, Supabase `APIError`, ...).
-/

/-- Kind of a raised Python exception, keyed to which `except` clauses of the
source module would catch it. -/
inductive ExcKind where
  | runtimeError
  | requestException
  | otherError
deriving DecidableEq, Repr

/-- An embedded Python exception: its catch-classification and message. -/
structure Exc where
  kind : ExcKind
  msg : String
deriving DecidableEq, Repr

deriving instance DecidableEq for Except

/-! ## Dates and times

`datetime.datetime` values are embedded as a record of calendar fields plus an
optional UTC offset (in minutes); `tzOffMin = none` is a naive datetime.
`.timestamp()` on a naive datetime uses the process-local timezone in CPython;
the deployment convention modelled here is a UTC-local process, so a naive
datetime is read as UTC. -/

/-- Embedded `datetime.datetime` value. -/
structure PyDateTime where
  year : Nat
  month : Nat
  day : Nat
  hour : Nat
  minute : Nat
  second : Nat
  usec : Nat
  tzOffMin : Option Int
deriving DecidableEq, Repr

/-- Proleptic Gregorian leap-year test (as in `datetime`). -/
def isLeap (y : Nat) : Bool :=
  (y % 4 == 0 && y % 100 != 0) || y % 400 == 0

/-- Days in the given month of the given year. -/
def daysInMonth (y m : Nat) : Nat :=
  match m with
  | 1 => 31
  | 2 => if isLeap y then 29 else 28
  | 3 => 31
  | 4 => 30
  | 5 => 31
  | 6 => 30
  | 7 => 31
  | 8 => 31
  | 9 => 30
  | 10 => 31
  | 11 => 30
  | 12 => 31
  | _ => 0

/-- Days in all years before year `y` (proleptic Gregorian, `y ≥ 1`). -/
def daysBeforeYear (y : Nat) : Nat :=
  365 * (y - 1) + (y - 1) / 4 - (y - 1) / 100 + (y - 1) / 400

/-- Days in the months of year `y` strictly before month `m`. -/
def daysBeforeMonth (y m : Nat) : Nat :=
  let base :=
    match m with
    | 1 => 0
    | 2 => 31
    | 3 => 59
    | 4 => 90
    | 5 => 120
    | 6 => 151
    | 7 => 181
    | 8 => 212
    | 9 => 243
    | 10 => 273
    | 11 => 304
    | 12 => 334
    | _ => 0
  if 2 < m && isLeap y then base + 1 else base

/-- Python `date.toordinal()`: 0001-01-01 is day 1. -/
def toOrdinal (y m d : Nat) : Nat :=
  daysBeforeYear y + daysBeforeMonth y m + d

/-- Whole seconds since the Unix epoch of a `PyDateTime` (naive read as UTC);
1970-01-01 has ordinal 719163. -/
def epochSeconds (dt : PyDateTime) : Int :=
  ((toOrdinal dt.year dt.month dt.day : Int) - 719163) * 86400
    + dt.hour * 3600 + dt.minute * 60 + dt.second
    - (dt.tzOffMin.getD 0) * 60

/-- Python `int(dt.timestamp())`: the float timestamp truncated toward zero.  The
total value in microseconds is exact, and `Int.div` truncates toward zero
just as Python `int()` does. -/
def dtEpochInt (dt : PyDateTime) : Int :=
  Int.tdiv (epochSeconds dt * 1000000 + dt.usec) 1000000

/-- Python `int(dt.timestamp() * 1000)`: epoch milliseconds truncated toward zero. -/
def dtEpochMs (dt : PyDateTime) : Int :=
  Int.tdiv (epochSeconds dt * 1000000 + dt.usec) 1000

/-! ## String scanning helpers (over `List Char`) -/

/-- Python `str.strip()` whitespace test (ASCII whitespace). -/
def pyIsSpace (c : Char) : Bool :=
  c = ' ' || c = '\t' || c = '\n' || c = '\r' || c = '\x0b' || c = '\x0c'

/-- Python `str.strip()`. -/
def stripL (cs : List Char) : List Char :=
  ((cs.dropWhile pyIsSpace).reverse.dropWhile pyIsSpace).reverse

/-- Python `str.replace(old, new)` for a single-character `old` (the only form
the source uses: `"Z" → "+00:00"` and `" " → "T"`). -/
def replaceChar (c : Char) (rep : List Char) : List Char → List Char
  | [] => []
  | x :: xs => (if x = c then rep else [x]) ++ replaceChar c rep xs

/-- Read exactly `n` decimal digits, most significant first. -/
def readNDigits : Nat → List Char → Nat → Option (Nat × List Char)
  | 0, cs, acc => some (acc, cs)
  | _ + 1, [], _ => none
  | n + 1, c :: cs, acc =>
      if c.isDigit then readNDigits n cs (acc * 10 + (c.toNat - 48)) else none

/-- Digits of a digit list read as a number. -/
def digitsVal (cs : List Char) : Nat :=
  cs.foldl (fun acc c => acc * 10 + (c.toNat - 48)) 0

/-! ## `datetime.datetime.fromisoformat`

Model of CPython's `datetime.fromisoformat` (the pre-3.11 grammar, which is
what the module's defensive preprocessing targets), restricted to the literal
`T` date/time separator — both call sites normalize the separator to `T`
(`_to_epoch_seconds` rewrites spaces, and Graph `receivedDateTime` values use
`T`).  Accepted shape: `YYYY-MM-DD[THH[:MM[:SS[.fff|.ffffff]]]][±HH:MM]` with
full range validation; anything else is a `ValueError`, embedded as `none`. -/

/-- Parse a `±HH:MM` timezone tail into an offset in minutes. -/
def parseTzTail (cs : List Char) : Option Int :=
  match cs with
  | sign :: rest =>
    if sign = '+' || sign = '-' then
      match readNDigits 2 rest 0 with
      | some (hh, ':' :: r1) =>
        match readNDigits 2 r1 0 with
        | some (mm, []) =>
          if hh ≤ 23 && mm ≤ 59 then
            some ((if sign = '-' then -1 else 1) * ((hh : Int) * 60 + mm))
          else none
        | _ => none
      | _ => none
    else none
  | [] => none

/-- Parse `[.fff|.ffffff][±HH:MM]` after the seconds field: microseconds and
timezone offset.  `none` offset means a naive datetime. -/
def parseFracTz (cs : List Char) : Option (Nat × Option Int) :=
  match cs with
  | [] => some (0, Option.none)
  | '.' :: r =>
    let ds := r.takeWhile Char.isDigit
    let rest := r.dropWhile Char.isDigit
    if ds.length = 3 then
      match rest with
      | [] => some (digitsVal ds * 1000, Option.none)
      | _ => (parseTzTail rest).map fun off => (digitsVal ds * 1000, some off)
    else if ds.length = 6 then
      match rest with
      | [] => some (digitsVal ds, Option.none)
      | _ => (parseTzTail rest).map fun off => (digitsVal ds, some off)
    else none
  | _ => (parseTzTail cs).map fun off => (0, some off)

/-- Parse the time-of-day (and optional timezone) part `HH[:MM[:SS[.f]]][tz]`.
Returns `(hour, minute, second, usec, offset)`. -/
def parseTimePart (cs : List Char) : Option (Nat × Nat × Nat × Nat × Option Int) :=
  match readNDigits 2 cs 0 with
  | Option.none => Option.none
  | some (hh, r1) =>
    if hh > 23 then Option.none else
    match r1 with
    | [] => some (hh, 0, 0, 0, Option.none)
    | ':' :: r2 =>
      match readNDigits 2 r2 0 with
      | Option.none => Option.none
      | some (mm, r3) =>
        if mm > 59 then Option.none else
        match r3 with
        | [] => some (hh, mm, 0, 0, Option.none)
        | ':' :: r4 =>
          match readNDigits 2 r4 0 with
          | Option.none => Option.none
          | some (ss, r5) =>
            if ss > 59 then Option.none else
            (parseFracTz r5).map fun p => (hh, mm, ss, p.1, p.2)
        | _ => (parseTzTail r3).map fun off => (hh, mm, 0, 0, some off)
    | _ => (parseTzTail r1).map fun off => (hh, 0, 0, 0, some off)

/-- Model of `datetime.datetime.fromisoformat` (see section comment). -/
def fromisoformat (cs : List Char) : Option PyDateTime :=
  match readNDigits 4 cs 0 with
  | Option.none => Option.none
  | some (y, r1) =>
    if y = 0 then Option.none else
    match r1 with
    | '-' :: r2 =>
      match readNDigits 2 r2 0 with
      | Option.none => Option.none
      | some (mo, r3) =>
        if mo < 1 || 12 < mo then Option.none else
        match r3 with
        | '-' :: r4 =>
          match readNDigits 2 r4 0 with
          | Option.none => Option.none
          | some (d, r5) =>
            if d < 1 || daysInMonth y mo < d then Option.none else
            match r5 with
            | [] => some ⟨y, mo, d, 0, 0, 0, 0, Option.none⟩
            | 'T' :: r6 =>
              (parseTimePart r6).map fun p =>
                ⟨y, mo, d, p.1, p.2.1, p.2.2.1, p.2.2.2.1, p.2.2.2.2⟩
            | _ => Option.none
        | _ => Option.none
    | _ => Option.none

/-! ## `_to_epoch_seconds` -/

/-- The dynamically-typed argument `_to_epoch_seconds` receives:
`None`, a `datetime`, a `str`, or any other value. -/
inductive PyTime where
  | null
  | dt (d : PyDateTime)
  | str (s : String)
  | other
deriving DecidableEq, Repr

/-- The regex step of `_to_epoch_seconds`:
`^(\d{4}-\d{2}-\d{2}T\d{2}:\d{2}:\d{2})(\.(\d+))?(.+)?$`.
On a match, returns the 19-character base, the fraction digits (possibly
empty when the optional group did not participate), and the trailing
timezone text.  The greedy `\d+` takes the maximal digit run, and a lone
`.` with no following digit is swept into the `(.+)?` tail, exactly as the
backtracking regex engine would. -/
def shape19 : List Char → Bool
  | [a, b, c, d, e, f, g, h, i, j, k, l, m, n, o, p, q, r, s] =>
    a.isDigit && b.isDigit && c.isDigit && d.isDigit && e = '-' &&
    f.isDigit && g.isDigit && h = '-' && i.isDigit && j.isDigit &&
    k = 'T' && l.isDigit && m.isDigit && n = ':' && o.isDigit &&
    p.isDigit && q = ':' && r.isDigit && s.isDigit
  | _ => false

/-- See `shape19`: the full regex match of `_to_epoch_seconds`. -/
def matchTsRegex (cs : List Char) : Option (List Char × List Char × List Char) :=
  if shape19 (cs.take 19) then
    match cs.drop 19 with
    | '.' :: r =>
      let ds := r.takeWhile Char.isDigit
      let rest := r.dropWhile Char.isDigit
      if ds.isEmpty then some (cs.take 19, [], '.' :: r)
      else some (cs.take 19, ds, rest)
    | r => some (cs.take 19, [], r)
  else Option.none

/-- Helper `_to_epoch_seconds(value)` from the source module.  `Except.error` embeds
an uncaught Python exception (here: the `ValueError` that
`datetime.fromisoformat` raises on an unparseable string). -/
def _to_epoch_seconds (v : PyTime) : Except Exc Int :=
  match v with
  | PyTime.null => Except.ok 0
  | PyTime.dt d => Except.ok (dtEpochInt d)
  | PyTime.str s0 =>
    let s1 := replaceChar ' ' ['T']
      (replaceChar 'Z' ['+', '0', '0', ':', '0', '0'] (stripL s0.toList))
    let s2 :=
      match matchTsRegex s1 with
      | Option.none => s1
      | some (base, frac, tz) =>
        if frac.isEmpty then s1
        else base ++ ('.' :: (frac ++ ['0', '0', '0', '0', '0', '0']).take 6) ++ tz
    match fromisoformat s2 with
    | Option.none => Except.error ⟨ExcKind.otherError, "ValueError"⟩
    | some d => Except.ok (dtEpochInt d)
  | PyTime.other => Except.ok 0

/-! ## Token refresh

The provider token endpoints are embedded as an oracle value fixing the
outcome of the one HTTP POST a refresh performs. -/

/-- Body of a provider token response (`r.json()`): `expires_in = none` embeds
a response without that key, `refresh_token = none` a response without that
key (`some ""` is present-but-empty, which Python treats as falsy). -/
structure TokenResponse where
  access_token : String
  expires_in : Option Int
  refresh_token : Option String
deriving DecidableEq, Repr

/-- Outcome of the refresh HTTP POST: a response with a status code and body,
or a transport failure (`requests.RequestException`). -/
inductive RefreshOutcome where
  | resp (status : Nat) (text : String) (body : TokenResponse)
  | transport (msg : String)
deriving DecidableEq, Repr

/-- Source `refresh_access_token_google(refresh_token)`: raises `RuntimeError` on a
status `>= 400` response, propagates transport failures, else returns the
parsed body.  The refresh token goes into the request, whose result is the
oracle `o`. -/
def refresh_access_token_google (_refresh_token : String) (o : RefreshOutcome) :
    Except Exc TokenResponse :=
  match o with
  | RefreshOutcome.resp st text body =>
    if 400 ≤ st then
      Except.error ⟨ExcKind.runtimeError, "google_refresh_http_" ++ toString st ++ ": " ++ text⟩
    else Except.ok body
  | RefreshOutcome.transport m => Except.error ⟨ExcKind.requestException, m⟩

/-- Source `refresh_access_token_ms(refresh_token)`: same shape as the Google
variant, with the Microsoft error prefix. -/
def refresh_access_token_ms (_refresh_token : String) (o : RefreshOutcome) :
    Except Exc TokenResponse :=
  match o with
  | RefreshOutcome.resp st text body =>
    if 400 ≤ st then
      Except.error ⟨ExcKind.runtimeError, "ms_refresh_http_" ++ toString st ++ ": " ++ text⟩
    else Except.ok body
  | RefreshOutcome.transport m => Except.error ⟨ExcKind.requestException, m⟩

/-! ## Store rows, messages, events, environment -/

/-- A row of the `email_tokens` table, with the fields the engine reads.
`refresh_token = some ""` models a present-but-empty value (falsy in
Python, like a missing one). -/
structure Row where
  id : Nat
  user_id : String
  provider : String
  access_token : String
  refresh_token : Option String
  expires_at : PyTime
  last_sync_ts : Option Int
  subject_filter : Option String
deriving Repr

/-- The fields `get_valid_token` persists after a successful refresh.  The
stored ISO string `new_expires.isoformat()` is represented by its epoch
seconds; `refresh_token = none` means the update dict has no such key, so the
stored value is untouched. -/
structure TokenUpdate where
  access_token : String
  expires_at_epoch : Int
  refresh_token : Option String
deriving DecidableEq, Repr

/-- Outcome of the sink HTTP POST inside `push_to_n8n`. -/
inductive PushOutcome where
  | posted
  | transport (msg : String)
deriving DecidableEq, Repr

/-- Observable side effects of a poll pass. -/
inductive Ev where
  | refreshCall (rowId : Nat)
  | fetchCall (userId msgId : String)
  | pushCall (userId provider msgId : String) (o : PushOutcome)
  | markSeenCall (userId msgId : String)
  | watermarkUpdate (rowId : Nat) (ts : Int)
deriving DecidableEq, Repr

/-- A JSON field as `dict.get` hands it to the engine: the key may be
absent (so the `.get` default applies), present but `null` (Python `None`),
or a string. -/
inductive JStr where
  | absent
  | null
  | str (s : String)
deriving DecidableEq, Repr

/-- Python `int(s)` on a string: optional surrounding whitespace, an optional
sign, then ASCII digits with single underscores allowed between digits;
anything else raises `ValueError`. -/
def intDigitsTail : List Char → Bool
  | [] => true
  | '_' :: c :: cs => c.isDigit && intDigitsTail cs
  | '_' :: [] => false
  | c :: cs => c.isDigit && intDigitsTail cs

/-- See `intDigitsTail`: a valid unsigned `int()` digit run. -/
def intDigitsOk : List Char → Bool
  | [] => false
  | c :: cs => c.isDigit && intDigitsTail cs

/-- See `intDigitsTail`: Python `int(s)`. -/
def pyInt (s : String) : Except Exc Int :=
  let cs := stripL s.toList
  let signed : Bool × List Char :=
    match cs with
    | '-' :: r => (true, r)
    | '+' :: r => (false, r)
    | r => (false, r)
  if intDigitsOk signed.2 then
    let v : Int := digitsVal (signed.2.filter Char.isDigit)
    Except.ok (if signed.1 then -v else v)
  else Except.error ⟨ExcKind.otherError, "ValueError"⟩

/-- The `internal_ms` computation of `gmail_poll`:
`int(msg.get("internalDate", "0"))` — an absent key falls back to `"0"`, a
present `null` makes `int(None)` raise `TypeError`, and a non-numeric string
makes `int()` raise `ValueError`; neither is a `requests.RequestException`,
so both escape the loop. -/
def internalMsOf : JStr → Except Exc Int
  | JStr.absent => pyInt "0"
  | JStr.null => Except.error ⟨ExcKind.otherError, "TypeError"⟩
  | JStr.str s => pyInt s

/-- A Gmail message as the engine reads it: only `internalDate` matters
(a decimal epoch-milliseconds string from the API, carried raw — its
parsing by `int()` can fail). -/
structure GMsg where
  internalDate : JStr
deriving DecidableEq, Repr

/-- An Outlook message as the engine reads it: only `receivedDateTime`
matters (`none` embeds a missing key). -/
structure OMsg where
  receivedDateTime : Option String
deriving DecidableEq, Repr

/-- A provider list response: HTTP status and the message ids in the body. -/
structure ListResp where
  status : Nat
  ids : List String
deriving DecidableEq, Repr

/-- Environment of one poll pass: the clock, configuration, the initial
contents of the Seen-Message ledger, and oracles fixing the outcome of every
external call.  Store errors are injected per call site (`none` = the call
succeeds).  `listResp` is the outcome of the list HTTP call: `Except.error`
embeds an exception raised during it (transport failure, body decode), which
matters because neither poll handler wraps the list call in a `try`. -/
structure Env where
  now : Int
  utcnow : Int
  webhookUrl : Option String
  refresh : Nat → RefreshOutcome
  persistErr : Nat → Option Exc
  listResp : Nat → Except Exc ListResp
  fetchG : Nat → String → Except Exc GMsg
  fetchO : Nat → String → Except Exc OMsg
  seenErr : String → String → Option Exc
  markErr : String → String → Option Exc
  pushRes : Nat → String → PushOutcome
  updateErr : Nat → Option Exc
  seen0 : List (String × String)

/-- Result of `get_valid_token`: the returned token or raised exception, the
events performed, and the row update persisted (if any). -/
structure TokenStep where
  result : Except Exc String
  evs : List Ev
  persisted : Option TokenUpdate
deriving DecidableEq, Repr

/-- Source `get_valid_token(row)`: serve the stored token while
`expires_at` is more than 60s away, else refresh via the provider,
persisting the rotated credentials on success. -/
def get_valid_token (env : Env) (row : Row) : TokenStep :=
  match _to_epoch_seconds row.expires_at with
  | Except.error e => ⟨Except.error e, [], Option.none⟩
  | Except.ok expires_at_epoch =>
    if expires_at_epoch ≠ 0 ∧ env.now < expires_at_epoch - 60 then
      ⟨Except.ok row.access_token, [], Option.none⟩
    else
      match row.refresh_token with
      | Option.none => ⟨Except.error ⟨ExcKind.runtimeError, "no_refresh_token"⟩, [], Option.none⟩
      | some rt =>
        if rt = "" then
          ⟨Except.error ⟨ExcKind.runtimeError, "no_refresh_token"⟩, [], Option.none⟩
        else
          let refreshed :=
            if row.provider = "gmail" then refresh_access_token_google rt (env.refresh row.id)
            else refresh_access_token_ms rt (env.refresh row.id)
          match refreshed with
          | Except.error e =>
            ⟨Except.error ⟨ExcKind.runtimeError, "refresh_failed: " ++ e.msg⟩,
             [Ev.refreshCall row.id], Option.none⟩
          | Except.ok new =>
            let upd : TokenUpdate :=
              { access_token := new.access_token,
                expires_at_epoch := env.utcnow + new.expires_in.getD 3600,
                refresh_token :=
                  match new.refresh_token with
                  | Option.none => Option.none
                  | some s => if s = "" then Option.none else some s }
            match env.persistErr row.id with
            | some e => ⟨Except.error e, [Ev.refreshCall row.id], Option.none⟩
            | Option.none => ⟨Except.ok new.access_token, [Ev.refreshCall row.id], some upd⟩

/-- Truthiness test: `row.get("refresh_token")` is falsy when missing or the empty string. -/
def rtFalsy : Option String → Bool
  | Option.none => true
  | some s => s == ""

/-! ## Provider mail clients -/

/-- Source `fetch_new_message_ids_gmail`: the `after:`/`subject:` query only shapes
which ids the provider returns, which the oracle outcome `o` already fixes;
a received non-200 response yields the empty list, but an exception raised by
`requests.get` itself propagates — the function has no `try`, and neither
does its caller. -/
def fetch_new_message_ids_gmail (o : Except Exc ListResp) : Except Exc (List String) :=
  match o with
  | Except.error e => Except.error e
  | Except.ok r => if r.status = 200 then Except.ok r.ids else Except.ok []

/-- Source `fetch_new_message_ids_outlook`: a received non-200 response
yields the empty list, else the ids of the body items; an exception from the
HTTP call itself propagates. -/
def fetch_new_message_ids_outlook (o : Except Exc ListResp) : Except Exc (List String) :=
  match o with
  | Except.error e => Except.error e
  | Except.ok r => if r.status ≠ 200 then Except.ok [] else Except.ok r.ids

/-- The `recv_ms` computation of `outlook_poll`:
`int(datetime.fromisoformat(rdt.replace("Z", "+00:00")).timestamp() * 1000)
if rdt else 0`.  A parse failure is an uncaught `ValueError`. -/
def recvMs (rdt : Option String) : Except Exc Int :=
  match rdt with
  | Option.none => Except.ok 0
  | some s =>
    if s = "" then Except.ok 0
    else
      match fromisoformat (replaceChar 'Z' ['+', '0', '0', ':', '0', '0'] s.toList) with
      | Option.none => Except.error ⟨ExcKind.otherError, "ValueError"⟩
      | some d => Except.ok (dtEpochMs d)

/-- Source `push_to_n8n(user_id, message, provider)`: no-op without a configured
webhook URL; otherwise one POST whose failure is caught inside the function.
Returns the events performed (it can never raise). -/
def push_to_n8n (webhookUrl : Option String) (o : PushOutcome)
    (user_id provider msgId : String) : List Ev :=
  match webhookUrl with
  | Option.none => []
  | some _ => [Ev.pushCall user_id provider msgId o]

/-! ## Poll orchestrators

The per-message loops of `gmail_poll` and `outlook_poll`.  The mutable loop
state is `seen` (the ledger contents, threaded because `mark_seen` inserts
into the same table `already_seen` queries), the running `max` timestamp, the
`processed` counter, and the event log.  The second component of a step is an
uncaught exception escaping the loop: `already_seen` failures (checked
outside the loop's `try`) and any non-`requests.RequestException` error
inside it. -/

/-- Mutable state of the per-message loop. -/
structure LoopSt where
  seen : List (String × String)
  maxMs : Int
  processed : Nat
  evs : List Ev
deriving Repr

/-- One iteration of the Gmail message loop (lines 364-376 of the source).
The `int(msg.get("internalDate", "0"))` parse sits inside the `try`, but a
`ValueError`/`TypeError` there is not a `requests.RequestException`, so it
escapes. -/
def gmailMsgStep (env : Env) (row : Row) (st : LoopSt) (msgId : String) :
    LoopSt × Option Exc :=
  match env.seenErr row.user_id msgId with
  | some e => (st, some e)
  | Option.none =>
    if (row.user_id, msgId) ∈ st.seen then (st, Option.none)
    else
      match env.fetchG row.id msgId with
      | Except.error e =>
        let st1 := { st with evs := st.evs ++ [Ev.fetchCall row.user_id msgId] }
        if e.kind = ExcKind.requestException then (st1, Option.none) else (st1, some e)
      | Except.ok msg =>
        match internalMsOf msg.internalDate with
        | Except.error e =>
          ({ st with evs := st.evs ++ [Ev.fetchCall row.user_id msgId] }, some e)
        | Except.ok internal_ms =>
        let mx := if internal_ms > st.maxMs then internal_ms else st.maxMs
        let pevs := push_to_n8n env.webhookUrl (env.pushRes row.id msgId)
          row.user_id "gmail" msgId
        match env.markErr row.user_id msgId with
        | some e =>
          let st1 := { st with
            maxMs := mx,
            evs := st.evs ++ [Ev.fetchCall row.user_id msgId] ++ pevs }
          if e.kind = ExcKind.requestException then (st1, Option.none) else (st1, some e)
        | Option.none =>
          ({ seen := st.seen ++ [(row.user_id, msgId)],
             maxMs := mx,
             processed := st.processed + 1,
             evs := st.evs ++ [Ev.fetchCall row.user_id msgId] ++ pevs
               ++ [Ev.markSeenCall row.user_id msgId] }, Option.none)

/-- One iteration of the Outlook message loop (lines 537-552 of the source).
The `receivedDateTime` parse sits inside the `try`, but a `ValueError` there
is not a `requests.RequestException`, so it escapes. -/
def outlookMsgStep (env : Env) (row : Row) (st : LoopSt) (msgId : String) :
    LoopSt × Option Exc :=
  match env.seenErr row.user_id msgId with
  | some e => (st, some e)
  | Option.none =>
    if (row.user_id, msgId) ∈ st.seen then (st, Option.none)
    else
      match env.fetchO row.id msgId with
      | Except.error e =>
        let st1 := { st with evs := st.evs ++ [Ev.fetchCall row.user_id msgId] }
        if e.kind = ExcKind.requestException then (st1, Option.none) else (st1, some e)
      | Except.ok msg =>
        match recvMs msg.receivedDateTime with
        | Except.error e =>
          ({ st with evs := st.evs ++ [Ev.fetchCall row.user_id msgId] }, some e)
        | Except.ok recv_ms =>
          let mx := if recv_ms > st.maxMs then recv_ms else st.maxMs
          let pevs := push_to_n8n env.webhookUrl (env.pushRes row.id msgId)
            row.user_id "outlook" msgId
          match env.markErr row.user_id msgId with
          | some e =>
            let st1 := { st with
              maxMs := mx,
              evs := st.evs ++ [Ev.fetchCall row.user_id msgId] ++ pevs }
            if e.kind = ExcKind.requestException then (st1, Option.none) else (st1, some e)
          | Option.none =>
            ({ seen := st.seen ++ [(row.user_id, msgId)],
               maxMs := mx,
               processed := st.processed + 1,
               evs := st.evs ++ [Ev.fetchCall row.user_id msgId] ++ pevs
                 ++ [Ev.markSeenCall row.user_id msgId] }, Option.none)

/-- Run a message loop, stopping at the first uncaught exception. -/
def runMsgs (step : LoopSt → String → LoopSt × Option Exc) :
    LoopSt → List String → LoopSt × Option Exc
  | st, [] => (st, Option.none)
  | st, m :: ms =>
    match step st m with
    | (st1, some e) => (st1, some e)
    | (st1, Option.none) => runMsgs step st1 ms

/-- Result of processing one account row inside a pass. -/
structure AccResult where
  seen : List (String × String)
  processedDelta : Nat
  evs : List Ev
  wm : Option Int
  exc : Option Exc
deriving Repr

/-- One iteration of the account loop of `gmail_poll` (lines 350-379).
A `RuntimeError` from `get_valid_token` skips the account (`continue`); any
other exception from it escapes the pass.  The list call at line 361 is
outside every `try`, so an exception it raises escapes too.  After the
message loop the watermark is written back when the max is truthy; that
store update is also outside any `try`. -/
def gmailAccount (env : Env) (seen : List (String × String)) (row : Row) : AccResult :=
  let last_ts_ms := row.last_sync_ts
  let tok := get_valid_token env row
  match tok.result with
  | Except.error e =>
    if e.kind = ExcKind.runtimeError then ⟨seen, 0, tok.evs, Option.none, Option.none⟩
    else ⟨seen, 0, tok.evs, Option.none, some e⟩
  | Except.ok _token =>
    match fetch_new_message_ids_gmail (env.listResp row.id) with
    | Except.error e => ⟨seen, 0, tok.evs, Option.none, some e⟩
    | Except.ok msg_ids =>
    let st0 : LoopSt := ⟨seen, last_ts_ms.getD 0, 0, tok.evs⟩
    match runMsgs (gmailMsgStep env row) st0 msg_ids with
    | (st1, some e) => ⟨st1.seen, st1.processed, st1.evs, Option.none, some e⟩
    | (st1, Option.none) =>
      if st1.maxMs ≠ 0 then
        match env.updateErr row.id with
        | some e => ⟨st1.seen, st1.processed, st1.evs, Option.none, some e⟩
        | Option.none =>
          ⟨st1.seen, st1.processed, st1.evs ++ [Ev.watermarkUpdate row.id st1.maxMs],
           some st1.maxMs, Option.none⟩
      else ⟨st1.seen, st1.processed, st1.evs, Option.none, Option.none⟩

/-- One iteration of the account loop of `outlook_poll` (lines 526-554);
identical control flow with the Outlook client. -/
def outlookAccount (env : Env) (seen : List (String × String)) (row : Row) : AccResult :=
  let last_ts_ms := row.last_sync_ts
  let tok := get_valid_token env row
  match tok.result with
  | Except.error e =>
    if e.kind = ExcKind.runtimeError then ⟨seen, 0, tok.evs, Option.none, Option.none⟩
    else ⟨seen, 0, tok.evs, Option.none, some e⟩
  | Except.ok _token =>
    match fetch_new_message_ids_outlook (env.listResp row.id) with
    | Except.error e => ⟨seen, 0, tok.evs, Option.none, some e⟩
    | Except.ok msg_ids =>
    let st0 : LoopSt := ⟨seen, last_ts_ms.getD 0, 0, tok.evs⟩
    match runMsgs (outlookMsgStep env row) st0 msg_ids with
    | (st1, some e) => ⟨st1.seen, st1.processed, st1.evs, Option.none, some e⟩
    | (st1, Option.none) =>
      if st1.maxMs ≠ 0 then
        match env.updateErr row.id with
        | some e => ⟨st1.seen, st1.processed, st1.evs, Option.none, some e⟩
        | Option.none =>
          ⟨st1.seen, st1.processed, st1.evs ++ [Ev.watermarkUpdate row.id st1.maxMs],
           some st1.maxMs, Option.none⟩
      else ⟨st1.seen, st1.processed, st1.evs, Option.none, Option.none⟩

/-- Run the account loop: total processed count, events, and the first
uncaught exception (which aborts the remaining rows). -/
def runRows (acc : List (String × String) → Row → AccResult) :
    List (String × String) → List Row → Nat × List Ev × Option Exc
  | _seen, [] => (0, [], Option.none)
  | seen, row :: rest =>
    let r := acc seen row
    match r.exc with
    | some e => (r.processedDelta, r.evs, some e)
    | Option.none =>
      let t := runRows acc r.seen rest
      (r.processedDelta + t.1, r.evs ++ t.2.1, t.2.2)

/-- What a poll endpoint invocation produces: the `{"status": "ok"}` body, the
500 JSON body `gmail_poll` returns when its initial select fails, or an
exception escaping the handler (FastAPI turns it into a generic 500). -/
inductive PollResponse where
  | ok (processed : Nat)
  | http500 (detail : String)
  | uncaught (e : Exc)
deriving DecidableEq, Repr

/-- A pass outcome: its response and the events it performed. -/
structure PassResult where
  response : PollResponse
  evs : List Ev
deriving DecidableEq, Repr

/-- Source `gmail_poll()`: only the initial `email_tokens` select (whose outcome is
`selectRes`) is wrapped in a `try`, answering 500 JSON on failure. -/
def gmail_poll (env : Env) (selectRes : Except Exc (List Row)) : PassResult :=
  match selectRes with
  | Except.error e => ⟨PollResponse.http500 e.msg, []⟩
  | Except.ok rows =>
    match runRows (gmailAccount env) env.seen0 rows with
    | (n, evs, Option.none) => ⟨PollResponse.ok n, evs⟩
    | (_, evs, some e) => ⟨PollResponse.uncaught e, evs⟩

/-- Source `outlook_poll()`: the initial select is not wrapped at all, so its
failure escapes the handler. -/
def outlook_poll (env : Env) (selectRes : Except Exc (List Row)) : PassResult :=
  match selectRes with
  | Except.error e => ⟨PollResponse.uncaught e, []⟩
  | Except.ok rows =>
    match runRows (outlookAccount env) env.seen0 rows with
    | (n, evs, Option.none) => ⟨PollResponse.ok n, evs⟩
    | (_, evs, some e) => ⟨PollResponse.uncaught e, evs⟩

/-! ## Derived state views used by the theorems -/

/-- The stored row after one account iteration of a Gmail pass: only
`last_sync_ts` is rewritten, and only when the pass reached its final
update. -/
def accountAfterGmail (env : Env) (row : Row) : Row :=
  match (gmailAccount env env.seen0 row).wm with
  | some w => { row with last_sync_ts := some w }
  | Option.none => row

/-- The stored row after one account iteration of an Outlook pass. -/
def accountAfterOutlook (env : Env) (row : Row) : Row :=
  match (outlookAccount env env.seen0 row).wm with
  | some w => { row with last_sync_ts := some w }
  | Option.none => row

/-- A poll pass of either provider, as it acts on one account row. -/
inductive Pass where
  | gmail (env : Env)
  | outlook (env : Env)

/-- The stored row after a sequence of poll passes. -/
def runPasses (ps : List Pass) (row : Row) : Row :=
  match ps with
  | [] => row
  | Pass.gmail e :: rest => runPasses rest (accountAfterGmail e row)
  | Pass.outlook e :: rest => runPasses rest (accountAfterOutlook e row)

/-- Is the pass response the aggregate `{"status": "ok", ...}` body? -/
def isOkResp : PollResponse → Bool
  | PollResponse.ok _ => true
  | _ => false

/-- Does an event fetch, push, or ledger-mark the message `(u, m)`? -/
def evTouches (u m : String) : Ev → Bool
  | Ev.fetchCall u2 m2 => u2 == u && m2 == m
  | Ev.pushCall u2 _ m2 _ => u2 == u && m2 == m
  | Ev.markSeenCall u2 m2 => u2 == u && m2 == m
  | _ => false

/-- Number of ledger insertions (`mark_seen` successes) among the events;
the `processed` counter increments exactly with these. -/
def countMark (evs : List Ev) : Nat :=
  (evs.filter fun ev =>
    match ev with
    | Ev.markSeenCall _ _ => true
    | _ => false).length

/-! ## Concrete inputs for witnesses and counterexamples -/

/-- A benign environment; the concrete scenarios below override fields. -/
def baseEnv : Env :=
  { now := 1000,
    utcnow := 1000,
    webhookUrl := Option.none,
    refresh := fun _ => RefreshOutcome.transport "net down",
    persistErr := fun _ => Option.none,
    listResp := fun _ => Except.ok ⟨200, []⟩,
    fetchG := fun _ _ => Except.ok ⟨JStr.absent⟩,
    fetchO := fun _ _ => Except.ok ⟨Option.none⟩,
    seenErr := fun _ _ => Option.none,
    markErr := fun _ _ => Option.none,
    pushRes := fun _ _ => PushOutcome.posted,
    updateErr := fun _ => Option.none,
    seen0 := [] }

/-- A healthy Gmail row whose token is still fresh at `now = 1000`. -/
def rowFresh : Row :=
  { id := 1, user_id := "u1", provider := "gmail", access_token := "tokA",
    refresh_token := some "rt1",
    expires_at := PyTime.dt ⟨2100, 1, 1, 0, 0, 0, 0, some 0⟩,
    last_sync_ts := some 1000, subject_filter := Option.none }

/-- Sanity check: the spec's first-scenario shape on concrete inputs — a
fresh account with watermark 1000 whose provider lists two new messages with
timestamps 1500 and 900 processes both and advances the watermark to 1500. -/
theorem gmail_poll_scenario_check :
    gmail_poll
      { baseEnv with listResp := fun _ => Except.ok ⟨200, ["m1", "m2"]⟩,
                     fetchG := fun _ m =>
                       Except.ok ⟨JStr.str (if m = "m1" then "1500" else "900")⟩,
                     webhookUrl := some "hook" }
      (Except.ok [rowFresh]) =
    ⟨PollResponse.ok 2,
     [Ev.fetchCall "u1" "m1", Ev.pushCall "u1" "gmail" "m1" PushOutcome.posted,
      Ev.markSeenCall "u1" "m1",
      Ev.fetchCall "u1" "m2", Ev.pushCall "u1" "gmail" "m2" PushOutcome.posted,
      Ev.markSeenCall "u1" "m2",
      Ev.watermarkUpdate 1 1500]⟩ := by decide

/-- Sanity checks of the parser model on concrete strings. -/
theorem to_epoch_seconds_checks :
    _to_epoch_seconds (PyTime.str "2024-01-02 03:04:05Z") = Except.ok 1704164645 ∧
    _to_epoch_seconds (PyTime.str "1970-01-01T00:02:00+00:00") = Except.ok 120 := by
  refine ⟨by decide, by decide⟩

/-- Sanity checks of the `int()` model: numeric strings (with sign,
surrounding whitespace, or digit-group underscores) parse as CPython does,
and a non-numeric string raises. -/
theorem pyInt_checks :
    pyInt "0" = Except.ok 0 ∧ pyInt " -42 " = Except.ok (-42) ∧
    pyInt "1_000" = Except.ok 1000 ∧
    pyInt "not-a-number" = Except.error ⟨ExcKind.otherError, "ValueError"⟩ ∧
    pyInt "" = Except.error ⟨ExcKind.otherError, "ValueError"⟩ := by
  refine ⟨by decide, by decide, by decide, by decide, by decide⟩

/-! ## Helper lemmas -/

/-- Helper: `get_valid_token` performs at most the one refresh network call, and no
other kind of event. -/
theorem get_valid_token_evs (env : Env) (row : Row) :
    (get_valid_token env row).evs = [] ∨
    (get_valid_token env row).evs = [Ev.refreshCall row.id] := by
  unfold get_valid_token
  rcases hp : _to_epoch_seconds row.expires_at with e | e
  · simp
  · simp only []
    by_cases hc : e ≠ 0 ∧ env.now < e - 60
    · simp [hc]
    · rw [if_neg hc]
      rcases hrt : row.refresh_token with _ | s
      · simp
      · simp only []
        by_cases hs : s = ""
        · simp [hs]
        · rw [if_neg hs]
          rcases hr :
              (if row.provider = "gmail"
                then refresh_access_token_google s (env.refresh row.id)
                else refresh_access_token_ms s (env.refresh row.id)) with e2 | new
          · simp
          · simp only []
            rcases hpe : env.persistErr row.id with _ | e3 <;> simp

/-! ## Claim C5: a refresh failure skips only that account -/

/-- A Gmail account iteration whose token step raised `RuntimeError` is a
pure skip: ledger untouched, nothing processed, only the token step's events,
no watermark write, no escaping exception. -/
theorem gmailAccount_token_error (env : Env) (seen : List (String × String))
    (row : Row) (e : Exc)
    (h1 : (get_valid_token env row).result = Except.error e)
    (h2 : e.kind = ExcKind.runtimeError) :
    gmailAccount env seen row =
      ⟨seen, 0, (get_valid_token env row).evs, Option.none, Option.none⟩ := by
  unfold gmailAccount
  simp only []
  rw [h1]
  simp only []
  rw [if_pos h2]

/-- Outlook version of `gmailAccount_token_error`. -/
theorem outlookAccount_token_error (env : Env) (seen : List (String × String))
    (row : Row) (e : Exc)
    (h1 : (get_valid_token env row).result = Except.error e)
    (h2 : e.kind = ExcKind.runtimeError) :
    outlookAccount env seen row =
      ⟨seen, 0, (get_valid_token env row).evs, Option.none, Option.none⟩ := by
  unfold outlookAccount
  simp only []
  rw [h1]
  simp only []
  rw [if_pos h2]

/-- Skipping a head row that contributes neither count nor ledger change nor
exception leaves the rest of the account loop untouched. -/
theorem runRows_cons_skip (acc : List (String × String) → Row → AccResult)
    (seen : List (String × String)) (row : Row) (rest : List Row) (evs0 : List Ev)
    (hacc : acc seen row = ⟨seen, 0, evs0, Option.none, Option.none⟩) :
    runRows acc seen (row :: rest) =
      ((runRows acc seen rest).1, evs0 ++ (runRows acc seen rest).2.1,
        (runRows acc seen rest).2.2) := by
  conv_lhs => rw [runRows]
  simp only []
  rw [hacc]
  simp

/-- Claim C5: for an account whose `get_valid_token` raises a `RuntimeError`
(missing refresh token, provider HTTP >= 400, transport failure — all three
surface as `RuntimeError`), both poll passes skip exactly that account: the
pass response (status and processed count) is that of the remaining rows
alone, the skipped account contributes only its token-step events — which are
at most the one refresh attempt, so no fetch, no push, no ledger mark, no
watermark write for it — and the remaining accounts are still fully
processed. -/
theorem refresh_failure_skips_account (env : Env) (row : Row) (rest : List Row)
    (e : Exc)
    (h1 : (get_valid_token env row).result = Except.error e)
    (h2 : e.kind = ExcKind.runtimeError) :
    (gmail_poll env (Except.ok (row :: rest))).response =
      (gmail_poll env (Except.ok rest)).response ∧
    (gmail_poll env (Except.ok (row :: rest))).evs =
      (get_valid_token env row).evs ++ (gmail_poll env (Except.ok rest)).evs ∧
    (outlook_poll env (Except.ok (row :: rest))).response =
      (outlook_poll env (Except.ok rest)).response ∧
    (outlook_poll env (Except.ok (row :: rest))).evs =
      (get_valid_token env row).evs ++ (outlook_poll env (Except.ok rest)).evs ∧
    (∀ ev ∈ (get_valid_token env row).evs, ∃ i, ev = Ev.refreshCall i) := by
  have hG := gmailAccount_token_error env env.seen0 row e h1 h2
  have hO := outlookAccount_token_error env env.seen0 row e h1 h2
  have hevs : ∀ ev ∈ (get_valid_token env row).evs, ∃ i, ev = Ev.refreshCall i := by
    rcases get_valid_token_evs env row with h | h <;> rw [h]
    · simp
    · intro ev hev
      rcases List.mem_singleton.mp hev with rfl
      exact ⟨row.id, rfl⟩
  refine ⟨?_, ?_, ?_, ?_, hevs⟩
  · unfold gmail_poll
    simp only []
    rw [runRows_cons_skip (gmailAccount env) env.seen0 row rest _ hG]
    rcases hres : runRows (gmailAccount env) env.seen0 rest with ⟨n, evs, exc⟩
    rcases exc with _ | e2 <;> simp
  · unfold gmail_poll
    simp only []
    rw [runRows_cons_skip (gmailAccount env) env.seen0 row rest _ hG]
    rcases hres : runRows (gmailAccount env) env.seen0 rest with ⟨n, evs, exc⟩
    rcases exc with _ | e2 <;> simp
  · unfold outlook_poll
    simp only []
    rw [runRows_cons_skip (outlookAccount env) env.seen0 row rest _ hO]
    rcases hres : runRows (outlookAccount env) env.seen0 rest with ⟨n, evs, exc⟩
    rcases exc with _ | e2 <;> simp
  · unfold outlook_poll
    simp only []
    rw [runRows_cons_skip (outlookAccount env) env.seen0 row rest _ hO]
    rcases hres : runRows (outlookAccount env) env.seen0 rest with ⟨n, evs, exc⟩
    rcases exc with _ | e2 <;> simp

/-- Environment for the C5 witness: the provider lists one new message that
the healthy account will process. -/
def envSkip : Env :=
  { baseEnv with
    listResp := fun _ => Except.ok ⟨200, ["m9"]⟩,
    fetchG := fun _ _ => Except.ok ⟨JStr.str "2000"⟩ }

/-- A broken row: stale (null) expiry and no refresh token. -/
def rowBrokenRt : Row :=
  { id := 5, user_id := "u5", provider := "gmail", access_token := "a5",
    refresh_token := Option.none, expires_at := PyTime.null,
    last_sync_ts := Option.none, subject_filter := Option.none }

/-- Witness for C5: with the broken row first, the pass response equals that
of the healthy rows alone. -/
theorem refresh_failure_skips_account_witness :
    (get_valid_token envSkip rowBrokenRt).result =
      Except.error ⟨ExcKind.runtimeError, "no_refresh_token"⟩ ∧
    (gmail_poll envSkip (Except.ok [rowBrokenRt, rowFresh])).response =
      (gmail_poll envSkip (Except.ok [rowFresh])).response :=
  ⟨by decide,
   (refresh_failure_skips_account envSkip rowBrokenRt [rowFresh]
     ⟨ExcKind.runtimeError, "no_refresh_token"⟩ (by decide) (by decide)).1⟩

/-! ## Claim C6: a sink push failure is swallowed -/

/-- Claim C6: for a message that is fetched successfully and whose ledger
mark succeeds, the loop body marks it seen and counts it as processed no
matter what the sink push did (the environment's push outcome is arbitrary
here, covering a failing HTTP POST — `push_to_n8n` catches the failure
internally and the step raises nothing); and with no sink endpoint
configured, `push_to_n8n` performs no POST at all. -/
theorem push_failure_swallowed (env : Env) (row : Row) (st : LoopSt)
    (mId : String) (msg : GMsg) (omsg : OMsg) (r v : Int)
    (hseenerr : env.seenErr row.user_id mId = Option.none)
    (hnotseen : (row.user_id, mId) ∉ st.seen)
    (hmark : env.markErr row.user_id mId = Option.none)
    (hfg : env.fetchG row.id mId = Except.ok msg)
    (hintd : internalMsOf msg.internalDate = Except.ok v)
    (hfo : env.fetchO row.id mId = Except.ok omsg)
    (hrdt : recvMs omsg.receivedDateTime = Except.ok r) :
    ((gmailMsgStep env row st mId).2 = Option.none ∧
     (gmailMsgStep env row st mId).1.processed = st.processed + 1 ∧
     (gmailMsgStep env row st mId).1.evs =
       st.evs ++ [Ev.fetchCall row.user_id mId] ++
       push_to_n8n env.webhookUrl (env.pushRes row.id mId) row.user_id "gmail" mId ++
       [Ev.markSeenCall row.user_id mId]) ∧
    ((outlookMsgStep env row st mId).2 = Option.none ∧
     (outlookMsgStep env row st mId).1.processed = st.processed + 1 ∧
     (outlookMsgStep env row st mId).1.evs =
       st.evs ++ [Ev.fetchCall row.user_id mId] ++
       push_to_n8n env.webhookUrl (env.pushRes row.id mId) row.user_id "outlook" mId ++
       [Ev.markSeenCall row.user_id mId]) ∧
    (∀ o u p m2, push_to_n8n Option.none o u p m2 = []) := by
  refine ⟨?_, ?_, fun o u p m2 => rfl⟩
  · unfold gmailMsgStep
    rw [hseenerr]
    simp only []
    rw [if_neg hnotseen, hfg]
    simp only []
    rw [hintd]
    simp only []
    rw [hmark]
    exact ⟨rfl, rfl, rfl⟩
  · unfold outlookMsgStep
    rw [hseenerr]
    simp only []
    rw [if_neg hnotseen, hfo]
    simp only []
    rw [hrdt]
    simp only []
    rw [hmark]
    exact ⟨rfl, rfl, rfl⟩

/-- Environment for the C6 witness: a configured sink whose POST fails. -/
def envPushDown : Env :=
  { baseEnv with
    webhookUrl := some "hook",
    pushRes := fun _ _ => PushOutcome.transport "sink down",
    fetchG := fun _ _ => Except.ok ⟨JStr.str "7"⟩ }

/-- Empty loop state for the C6 witness. -/
def stEmpty : LoopSt := ⟨[], 0, 0, []⟩

/-- Witness for C6: the sink POST fails, yet the message is marked seen and
counted, and the step raises nothing. -/
theorem push_failure_swallowed_witness :
    envPushDown.pushRes 1 "mX" = PushOutcome.transport "sink down" ∧
    (gmailMsgStep envPushDown rowFresh stEmpty "mX").2 = Option.none ∧
    (gmailMsgStep envPushDown rowFresh stEmpty "mX").1.processed =
      stEmpty.processed + 1 :=
  ⟨rfl,
   (push_failure_swallowed envPushDown rowFresh stEmpty "mX" ⟨JStr.str "7"⟩
     ⟨Option.none⟩ 0 7 rfl (by decide) rfl rfl (by decide) rfl rfl).1.1,
   (push_failure_swallowed envPushDown rowFresh stEmpty "mX" ⟨JStr.str "7"⟩
     ⟨Option.none⟩ 0 7 rfl (by decide) rfl rfl (by decide) rfl rfl).1.2.1⟩

/-! ## Claim C4: which errors are contained by a pass -/

/-- Environment whose `mark_seen` raises a Supabase `APIError` — a store
error occurring after the initial account-list query, inside the message
loop whose `except` clause only catches `requests.RequestException`. -/
def envMarkBug : Env :=
  { baseEnv with
    listResp := fun _ => Except.ok ⟨200, ["m1"]⟩,
    fetchG := fun _ _ => Except.ok ⟨JStr.str "5"⟩,
    markErr := fun _ _ => some ⟨ExcKind.otherError, "APIError"⟩ }

/-- Environment whose list HTTP call itself raises a transport error — the
list call is outside every `try` in both poll handlers. -/
def envListDown : Env :=
  { baseEnv with
    listResp := fun _ => Except.error ⟨ExcKind.requestException, "list timeout"⟩ }

/-- Environment whose fetched Gmail message carries a non-numeric
`internalDate`, so `int()` raises inside the loop's `try` that only catches
`requests.RequestException`. -/
def envBadInternal : Env :=
  { baseEnv with
    listResp := fun _ => Except.ok ⟨200, ["m1"]⟩,
    fetchG := fun _ _ => Except.ok ⟨JStr.str "not-a-number"⟩ }

/-- Counterexample to C4 as stated: a seen-ledger error after the initial
account-list query (`mark_seen` raising `APIError`) is NOT caught locally —
the pass aborts with the uncaught exception instead of returning
`{"status": "ok", ...}`.  Two further per-account error paths the claim says
are caught also abort the pass: a transport failure of the un-`try`ed list
call, and a `ValueError` from `int()` on a non-numeric `internalDate`. -/
theorem pass_error_containment_cex :
    (gmail_poll envMarkBug (Except.ok [rowFresh])).response =
      PollResponse.uncaught ⟨ExcKind.otherError, "APIError"⟩ ∧
    isOkResp (gmail_poll envMarkBug (Except.ok [rowFresh])).response = false ∧
    (gmail_poll envListDown (Except.ok [rowFresh])).response =
      PollResponse.uncaught ⟨ExcKind.requestException, "list timeout"⟩ ∧
    (outlook_poll envListDown (Except.ok [rowFresh])).response =
      PollResponse.uncaught ⟨ExcKind.requestException, "list timeout"⟩ ∧
    (gmail_poll envBadInternal (Except.ok [rowFresh])).response =
      PollResponse.uncaught ⟨ExcKind.otherError, "ValueError"⟩ := by
  refine ⟨by decide, by decide, by decide, by decide, by decide⟩

/-- Under a parseable expiry and a healthy token-persist store, any error
`get_valid_token` raises is a `RuntimeError` (the account-skip signal). -/
theorem get_valid_token_error_kind (env : Env) (row : Row)
    (hexp : ∃ v, _to_epoch_seconds row.expires_at = Except.ok v)
    (hpe : env.persistErr row.id = Option.none) :
    ∀ e, (get_valid_token env row).result = Except.error e →
      e.kind = ExcKind.runtimeError := by
  intro e he
  rcases hexp with ⟨v, hv⟩
  unfold get_valid_token at he
  rw [hv] at he
  simp only [] at he
  by_cases hc : v ≠ 0 ∧ env.now < v - 60
  · rw [if_pos hc] at he
    simp at he
  · rw [if_neg hc] at he
    rcases hrt : row.refresh_token with _ | s
    · rw [hrt] at he
      simp only [] at he
      injection he with h3
      subst h3
      rfl
    · rw [hrt] at he
      simp only [] at he
      by_cases hs : s = ""
      · rw [if_pos hs] at he
        injection he with h3
        subst h3
        rfl
      · rw [if_neg hs] at he
        rcases href :
            (if row.provider = "gmail"
              then refresh_access_token_google s (env.refresh row.id)
              else refresh_access_token_ms s (env.refresh row.id)) with e2 | new
        · rw [href] at he
          simp only [] at he
          injection he with h3
          subst h3
          rfl
        · rw [href] at he
          simp only [] at he
          rw [hpe] at he
          simp at he

/-- Under healthy ledger oracles, fetch failures that are
`requests.RequestException`s, and `int()`-parseable `internalDate` values,
no Gmail message-loop step raises. -/
theorem gmailMsgStep_no_exc (env : Env) (row : Row)
    (hseen : ∀ u m2, env.seenErr u m2 = Option.none)
    (hmark : ∀ u m2, env.markErr u m2 = Option.none)
    (hfetchG : ∀ i m2 e, env.fetchG i m2 = Except.error e →
      e.kind = ExcKind.requestException)
    (hintd : ∀ i m2 msg, env.fetchG i m2 = Except.ok msg →
      ∃ v, internalMsOf msg.internalDate = Except.ok v) :
    ∀ st m2, (gmailMsgStep env row st m2).2 = Option.none := by
  intro st m2
  unfold gmailMsgStep
  rw [hseen row.user_id m2]
  simp only []
  by_cases hmem : (row.user_id, m2) ∈ st.seen
  · rw [if_pos hmem]
  · rw [if_neg hmem]
    rcases hf : env.fetchG row.id m2 with e | msg
    · simp only []
      rw [if_pos (hfetchG row.id m2 e hf)]
    · simp only []
      rcases hintd row.id m2 msg hf with ⟨v, hv⟩
      rw [hv]
      simp only []
      rw [hmark row.user_id m2]

/-- Under healthy ledger oracles, `RequestException` fetch failures, and
parseable `receivedDateTime` values, no Outlook message-loop step raises. -/
theorem outlookMsgStep_no_exc (env : Env) (row : Row)
    (hseen : ∀ u m2, env.seenErr u m2 = Option.none)
    (hmark : ∀ u m2, env.markErr u m2 = Option.none)
    (hfetchO : ∀ i m2 e, env.fetchO i m2 = Except.error e →
      e.kind = ExcKind.requestException)
    (hrdt : ∀ i m2 msg, env.fetchO i m2 = Except.ok msg →
      ∃ v, recvMs msg.receivedDateTime = Except.ok v) :
    ∀ st m2, (outlookMsgStep env row st m2).2 = Option.none := by
  intro st m2
  unfold outlookMsgStep
  rw [hseen row.user_id m2]
  simp only []
  by_cases hmem : (row.user_id, m2) ∈ st.seen
  · rw [if_pos hmem]
  · rw [if_neg hmem]
    rcases hf : env.fetchO row.id m2 with e | msg
    · simp only []
      rw [if_pos (hfetchO row.id m2 e hf)]
    · simp only []
      rcases hrdt row.id m2 msg hf with ⟨v, hv⟩
      rw [hv]
      simp only []
      rw [hmark row.user_id m2]

/-- A message loop whose steps never raise never raises. -/
theorem runMsgs_no_exc (step : LoopSt → String → LoopSt × Option Exc)
    (hstep : ∀ st m2, (step st m2).2 = Option.none) :
    ∀ (ids : List String) (st : LoopSt), (runMsgs step st ids).2 = Option.none := by
  intro ids
  induction ids with
  | nil => intro st; rfl
  | cons m2 ms ih =>
    intro st
    unfold runMsgs
    rcases hs : step st m2 with ⟨st1, exc⟩
    have h0 := hstep st m2
    rw [hs] at h0
    simp only [] at h0
    subst h0
    simp only []
    exact ih st1

/-- A Gmail account iteration raises nothing when the store and ledger are
healthy, the list call receives a response, fetch failures are
`RequestException`s, and `internalDate` values parse. -/
theorem gmailAccount_no_exc (env : Env) (row : Row)
    (hexp : ∃ v, _to_epoch_seconds row.expires_at = Except.ok v)
    (hlist : ∃ r, env.listResp row.id = Except.ok r)
    (hpe : env.persistErr row.id = Option.none)
    (hupd : env.updateErr row.id = Option.none)
    (hseen : ∀ u m2, env.seenErr u m2 = Option.none)
    (hmark : ∀ u m2, env.markErr u m2 = Option.none)
    (hfetchG : ∀ i m2 e, env.fetchG i m2 = Except.error e →
      e.kind = ExcKind.requestException)
    (hintd : ∀ i m2 msg, env.fetchG i m2 = Except.ok msg →
      ∃ v, internalMsOf msg.internalDate = Except.ok v) :
    ∀ seen, (gmailAccount env seen row).exc = Option.none := by
  intro seen
  unfold gmailAccount
  simp only []
  rcases hres : (get_valid_token env row).result with e | tk
  · simp only []
    rw [if_pos (get_valid_token_error_kind env row hexp hpe e hres)]
  · simp only []
    rcases hfl : fetch_new_message_ids_gmail (env.listResp row.id) with e2 | msg_ids
    · exfalso
      rcases hlist with ⟨lr, hlr⟩
      rw [hlr] at hfl
      unfold fetch_new_message_ids_gmail at hfl
      simp only [] at hfl
      split at hfl <;> simp at hfl
    · simp only []
      rcases hrun : runMsgs (gmailMsgStep env row)
          ⟨seen, row.last_sync_ts.getD 0, 0, (get_valid_token env row).evs⟩
          msg_ids with ⟨st1, exc⟩
      have hnone := runMsgs_no_exc (gmailMsgStep env row)
        (gmailMsgStep_no_exc env row hseen hmark hfetchG hintd)
        msg_ids
        ⟨seen, row.last_sync_ts.getD 0, 0, (get_valid_token env row).evs⟩
      rw [hrun] at hnone
      simp only [] at hnone
      subst hnone
      simp only []
      by_cases hmx : st1.maxMs ≠ 0
      · rw [if_pos hmx, hupd]
      · rw [if_neg hmx]

/-- An Outlook account iteration raises nothing when the store and ledger
are healthy, the list call receives a response, fetch failures are
`RequestException`s, and timestamps parse. -/
theorem outlookAccount_no_exc (env : Env) (row : Row)
    (hexp : ∃ v, _to_epoch_seconds row.expires_at = Except.ok v)
    (hlist : ∃ r, env.listResp row.id = Except.ok r)
    (hpe : env.persistErr row.id = Option.none)
    (hupd : env.updateErr row.id = Option.none)
    (hseen : ∀ u m2, env.seenErr u m2 = Option.none)
    (hmark : ∀ u m2, env.markErr u m2 = Option.none)
    (hfetchO : ∀ i m2 e, env.fetchO i m2 = Except.error e →
      e.kind = ExcKind.requestException)
    (hrdt : ∀ i m2 msg, env.fetchO i m2 = Except.ok msg →
      ∃ v, recvMs msg.receivedDateTime = Except.ok v) :
    ∀ seen, (outlookAccount env seen row).exc = Option.none := by
  intro seen
  unfold outlookAccount
  simp only []
  rcases hres : (get_valid_token env row).result with e | tk
  · simp only []
    rw [if_pos (get_valid_token_error_kind env row hexp hpe e hres)]
  · simp only []
    rcases hfl : fetch_new_message_ids_outlook (env.listResp row.id) with e2 | msg_ids
    · exfalso
      rcases hlist with ⟨lr, hlr⟩
      rw [hlr] at hfl
      unfold fetch_new_message_ids_outlook at hfl
      simp only [] at hfl
      split at hfl <;> simp at hfl
    · simp only []
      rcases hrun : runMsgs (outlookMsgStep env row)
          ⟨seen, row.last_sync_ts.getD 0, 0, (get_valid_token env row).evs⟩
          msg_ids with ⟨st1, exc⟩
      have hnone := runMsgs_no_exc (outlookMsgStep env row)
        (outlookMsgStep_no_exc env row hseen hmark hfetchO hrdt)
        msg_ids
        ⟨seen, row.last_sync_ts.getD 0, 0, (get_valid_token env row).evs⟩
      rw [hrun] at hnone
      simp only [] at hnone
      subst hnone
      simp only []
      by_cases hmx : st1.maxMs ≠ 0
      · rw [if_pos hmx, hupd]
      · rw [if_neg hmx]

/-- An account loop over rows none of which raises, raises nothing. -/
theorem runRows_no_exc (acc : List (String × String) → Row → AccResult) :
    ∀ (rows : List Row),
      (∀ seen row, row ∈ rows → (acc seen row).exc = Option.none) →
      ∀ seen, (runRows acc seen rows).2.2 = Option.none := by
  intro rows
  induction rows with
  | nil => intro _ seen; rfl
  | cons row rest ih =>
    intro hacc seen
    unfold runRows
    simp only []
    rcases hexc : (acc seen row).exc with _ | e
    · simp only []
      exact ih (fun s r hr => hacc s r (List.mem_cons_of_mem row hr)) (acc seen row).seen
    · rw [hacc seen row (List.mem_cons_self row rest)] at hexc
      simp at hexc

/-- Claim C4 as amended: refresh failures (which surface as `RuntimeError`)
and per-message fetch failures (`requests.RequestException`) are caught
locally and the pass still returns `{"status": "ok", "processed": n}`; but
the containment stops there — seen-ledger and store errors after the initial
account-list query (`already_seen`, `mark_seen`, the watermark update, the
token-persist write), exceptions raised by the un-`try`ed list call itself
(transport failure, body decode), and message-timestamp parse failures
(Gmail `int(internalDate)`, Outlook `fromisoformat(receivedDateTime)`) are
NOT caught and abort the pass (see the counterexample).  A failure of the
initial account-list query yields the 500 JSON body in `gmail_poll`;
`outlook_poll` does not wrap even that query, so its select failure escapes
the handler (still a 5xx-equivalent, via the framework). -/
theorem pass_error_containment (env : Env) (rows : List Row)
    (hexp : ∀ row ∈ rows, ∃ v, _to_epoch_seconds row.expires_at = Except.ok v)
    (hlist : ∀ i, ∃ r, env.listResp i = Except.ok r)
    (hpersist : ∀ i, env.persistErr i = Option.none)
    (hupd : ∀ i, env.updateErr i = Option.none)
    (hseen : ∀ u m2, env.seenErr u m2 = Option.none)
    (hmark : ∀ u m2, env.markErr u m2 = Option.none)
    (hfetchG : ∀ i m2 e, env.fetchG i m2 = Except.error e →
      e.kind = ExcKind.requestException)
    (hintd : ∀ i m2 msg, env.fetchG i m2 = Except.ok msg →
      ∃ v, internalMsOf msg.internalDate = Except.ok v)
    (hfetchO : ∀ i m2 e, env.fetchO i m2 = Except.error e →
      e.kind = ExcKind.requestException)
    (hrdt : ∀ i m2 msg, env.fetchO i m2 = Except.ok msg →
      ∃ v, recvMs msg.receivedDateTime = Except.ok v) :
    isOkResp (gmail_poll env (Except.ok rows)).response = true ∧
    isOkResp (outlook_poll env (Except.ok rows)).response = true ∧
    (∀ exc, (gmail_poll env (Except.error exc)).response =
      PollResponse.http500 exc.msg) ∧
    (∀ exc, (outlook_poll env (Except.error exc)).response =
      PollResponse.uncaught exc) := by
  have hG : ∀ seen row, row ∈ rows → (gmailAccount env seen row).exc = Option.none :=
    fun seen row hr =>
      gmailAccount_no_exc env row (hexp row hr) (hlist row.id) (hpersist row.id)
        (hupd row.id) hseen hmark hfetchG hintd seen
  have hO : ∀ seen row, row ∈ rows → (outlookAccount env seen row).exc = Option.none :=
    fun seen row hr =>
      outlookAccount_no_exc env row (hexp row hr) (hlist row.id) (hpersist row.id)
        (hupd row.id) hseen hmark hfetchO hrdt seen
  refine ⟨?_, ?_, fun exc => rfl, fun exc => rfl⟩
  · unfold gmail_poll
    simp only []
    rcases hrr : runRows (gmailAccount env) env.seen0 rows with ⟨n, evs, exc⟩
    have h0 := runRows_no_exc (gmailAccount env) rows hG env.seen0
    rw [hrr] at h0
    simp only [] at h0
    subst h0
    rfl
  · unfold outlook_poll
    simp only []
    rcases hrr : runRows (outlookAccount env) env.seen0 rows with ⟨n, evs, exc⟩
    have h0 := runRows_no_exc (outlookAccount env) rows hO env.seen0
    rw [hrr] at h0
    simp only [] at h0
    subst h0
    rfl

/-- Environment for the C4 witness: every Gmail fetch fails with a transport
error (a `RequestException`), which the pass must swallow. -/
def envFetchDown : Env :=
  { baseEnv with
    listResp := fun _ => Except.ok ⟨200, ["m1"]⟩,
    fetchG := fun _ _ => Except.error ⟨ExcKind.requestException, "timeout"⟩ }

/-- Witness for the amended C4: with a broken-token row and a row whose every
fetch fails with a transport error, both passes still answer
`{"status": "ok"}`. -/
theorem pass_error_containment_witness :
    isOkResp (gmail_poll envFetchDown (Except.ok [rowFresh, rowBrokenRt])).response
      = true ∧
    isOkResp (outlook_poll envFetchDown (Except.ok [rowFresh, rowBrokenRt])).response
      = true := by
  have h := pass_error_containment envFetchDown [rowFresh, rowBrokenRt]
    (by
      intro row hr
      rcases List.mem_pair.mp hr with rfl | rfl
      · exact ⟨4102444800, by decide⟩
      · exact ⟨0, by decide⟩)
    (fun i => ⟨⟨200, ["m1"]⟩, rfl⟩)
    (fun i => rfl) (fun i => rfl) (fun u m2 => rfl) (fun u m2 => rfl)
    (by
      intro i m2 e h
      injection h with h2
      rw [← h2])
    (fun i m2 msg h => Except.noConfusion h)
    (fun i m2 e h => Except.noConfusion h)
    (by
      intro i m2 msg h
      injection h with h2
      rw [← h2]
      exact ⟨0, rfl⟩)
  exact ⟨h.1, h.2.1⟩

/-! ## Claim C3: token freshness threshold -/

/-- A stale row with no refresh token, used against C3 as stated. -/
def rowNoRt : Row :=
  { id := 3, user_id := "u3", provider := "gmail", access_token := "tokC",
    refresh_token := Option.none,
    expires_at := PyTime.str "1970-01-01T00:02:00+00:00",
    last_sync_ts := Option.none, subject_filter := Option.none }

/-- Counterexample to C3 as stated: this row's expiry parses to epoch 120, so
with `now = 1000` it satisfies `expiry - now <= 60`, yet `get_valid_token`
performs zero refresh calls (empty event list): it raises the terminal
`no_refresh_token` error before ever reaching the network, because the row
has no refresh token. -/
theorem token_refresh_threshold_cex :
    _to_epoch_seconds rowNoRt.expires_at = Except.ok 120 ∧
    (120 : Int) - baseEnv.now ≤ 60 ∧
    get_valid_token baseEnv rowNoRt =
      ⟨Except.error ⟨ExcKind.runtimeError, "no_refresh_token"⟩, [], Option.none⟩ := by
  refine ⟨by decide, by decide, by decide⟩

/-- Claim C3 as amended: when the parsed expiry satisfies
`expiry - now > 60`, `get_valid_token` returns the stored access token
unchanged with no network call and no store write; when
`expiry - now <= 60`, it performs exactly one refresh call provided the row
has a non-empty refresh token — when the refresh token is missing or empty
it instead raises the terminal `no_refresh_token` error without any network
call. -/
theorem token_refresh_threshold (env : Env) (row : Row) (e : Int)
    (hparse : _to_epoch_seconds row.expires_at = Except.ok e)
    (hnow : 0 ≤ env.now) :
    (60 < e - env.now →
      get_valid_token env row = ⟨Except.ok row.access_token, [], Option.none⟩) ∧
    (e - env.now ≤ 60 →
      (rtFalsy row.refresh_token = true →
        (get_valid_token env row).result =
          Except.error ⟨ExcKind.runtimeError, "no_refresh_token"⟩ ∧
        (get_valid_token env row).evs = []) ∧
      (rtFalsy row.refresh_token = false →
        (get_valid_token env row).evs = [Ev.refreshCall row.id])) := by
  unfold get_valid_token
  rw [hparse]
  simp only []
  constructor
  · intro hgt
    rw [if_pos (show e ≠ 0 ∧ env.now < e - 60 from ⟨by omega, by omega⟩)]
  · intro hle
    rw [if_neg (show ¬(e ≠ 0 ∧ env.now < e - 60) by omega)]
    constructor
    · intro hfalsy
      rcases hrt : row.refresh_token with _ | s
      · simp
      · have hs : s = "" := by simpa [rtFalsy, hrt] using hfalsy
        simp [hs]
    · intro htruthy
      rcases hrt : row.refresh_token with _ | s
      · simp [rtFalsy, hrt] at htruthy
      · have hs : ¬(s = "") := by simpa [rtFalsy, hrt] using htruthy
        simp only []
        rw [if_neg hs]
        rcases hr :
            (if row.provider = "gmail"
              then refresh_access_token_google s (env.refresh row.id)
              else refresh_access_token_ms s (env.refresh row.id)) with e2 | new
        · simp
        · simp only []
          rcases hpe : env.persistErr row.id with _ | e3 <;> simp

/-- Witness for the amended C3 on the fresh-token branch: `rowFresh` expires
in 2100, so at `now = 1000` the stored token is served with no events. -/
theorem token_refresh_threshold_witness :
    _to_epoch_seconds rowFresh.expires_at = Except.ok 4102444800 ∧
    (0 : Int) ≤ baseEnv.now ∧
    (60 < (4102444800 : Int) - baseEnv.now →
      get_valid_token baseEnv rowFresh =
        ⟨Except.ok rowFresh.access_token, [], Option.none⟩) :=
  ⟨by decide, by decide,
   (token_refresh_threshold baseEnv rowFresh 4102444800 (by decide) (by decide)).1⟩

/-! ## Claim C8: what a successful refresh persists -/

/-- Claim C8: on a successful refresh, the persisted update carries the new
access token and an expiry of now plus the provider-declared lifetime
(`expires_in`, defaulting to 3600 when absent), and contains a
`refresh_token` field only when the provider response holds a non-empty one —
otherwise the stored refresh token is left untouched (no key in the update
dict), never overwritten with empty. -/
theorem refresh_persists_rotated_token (env : Env) (row : Row) (e : Int)
    (rt : String) (st : Nat) (text : String) (body : TokenResponse)
    (hparse : _to_epoch_seconds row.expires_at = Except.ok e)
    (hstale : ¬(e ≠ 0 ∧ env.now < e - 60))
    (hrt : row.refresh_token = some rt) (hrtne : rt ≠ "")
    (hresp : env.refresh row.id = RefreshOutcome.resp st text body)
    (hok : st < 400)
    (hpersist : env.persistErr row.id = Option.none) :
    get_valid_token env row =
      ⟨Except.ok body.access_token, [Ev.refreshCall row.id],
       some { access_token := body.access_token,
              expires_at_epoch := env.utcnow + body.expires_in.getD 3600,
              refresh_token :=
                match body.refresh_token with
                | Option.none => Option.none
                | some s => if s = "" then Option.none else some s }⟩ := by
  unfold get_valid_token
  rw [hparse]
  simp only []
  rw [if_neg hstale, hrt]
  simp only []
  rw [if_neg hrtne]
  have href :
      (if row.provider = "gmail"
        then refresh_access_token_google rt (env.refresh row.id)
        else refresh_access_token_ms rt (env.refresh row.id)) = Except.ok body := by
    have h400 : ¬(400 ≤ st) := by omega
    rw [hresp]
    by_cases hp : row.provider = "gmail" <;>
      simp [hp, refresh_access_token_google, refresh_access_token_ms, h400]
  rw [href]
  simp only []
  rw [hpersist]

/-- A stale row and a provider response that rotates nothing, for the C8
witness: the update must then carry no `refresh_token` key. -/
def rowStale : Row :=
  { id := 8, user_id := "u8", provider := "gmail", access_token := "oldTok",
    refresh_token := some "rt8", expires_at := PyTime.null,
    last_sync_ts := Option.none, subject_filter := Option.none }

/-- Environment whose refresh succeeds with a 7200s lifetime and no rotated
refresh token. -/
def envRefreshOk : Env :=
  { baseEnv with
    refresh := fun _ => RefreshOutcome.resp 200 ""
      ⟨"newTok", some 7200, Option.none⟩ }

/-- Witness for C8: the persisted update keeps the old refresh token (no key)
and sets expiry `utcnow + 7200`. -/
theorem refresh_persists_rotated_token_witness :
    _to_epoch_seconds rowStale.expires_at = Except.ok 0 ∧
    envRefreshOk.refresh rowStale.id = RefreshOutcome.resp 200 ""
      ⟨"newTok", some 7200, Option.none⟩ ∧
    get_valid_token envRefreshOk rowStale =
      ⟨Except.ok "newTok", [Ev.refreshCall 8],
       some { access_token := "newTok", expires_at_epoch := 1000 + 7200,
              refresh_token := Option.none }⟩ :=
  ⟨by decide, rfl,
   refresh_persists_rotated_token envRefreshOk rowStale 0 "rt8" 200 ""
     ⟨"newTok", some 7200, Option.none⟩ (by decide) (by decide) rfl (by decide)
     rfl (by decide) rfl⟩

/-! ## Claim C10: a null or epoch-zero expiry always forces a refresh -/

/-- Claim C10: when the stored expiry is null (which parses to epoch 0) or
otherwise parses to epoch 0, the freshness test is falsy, so
`get_valid_token` never serves the stored access token directly: with a
missing (or empty) refresh token it raises the terminal `no_refresh_token`
error even though the stored token might still be valid, and with a usable
refresh token it always performs the refresh network call. -/
theorem null_expiry_always_refreshes (env : Env) (row : Row)
    (hzero : _to_epoch_seconds row.expires_at = Except.ok 0) :
    (row.expires_at = PyTime.null → _to_epoch_seconds row.expires_at = Except.ok 0) ∧
    (rtFalsy row.refresh_token = true →
      (get_valid_token env row).result =
        Except.error ⟨ExcKind.runtimeError, "no_refresh_token"⟩ ∧
      (get_valid_token env row).evs = []) ∧
    (rtFalsy row.refresh_token = false →
      (get_valid_token env row).evs = [Ev.refreshCall row.id]) := by
  refine ⟨fun _ => hzero, ?_, ?_⟩
  · intro hfalsy
    unfold get_valid_token
    rw [hzero]
    simp only []
    rw [if_neg (show ¬((0 : Int) ≠ 0 ∧ env.now < 0 - 60) by omega)]
    rcases hrt : row.refresh_token with _ | s
    · simp
    · have hs : s = "" := by simpa [rtFalsy, hrt] using hfalsy
      simp [hs]
  · intro htruthy
    unfold get_valid_token
    rw [hzero]
    simp only []
    rw [if_neg (show ¬((0 : Int) ≠ 0 ∧ env.now < 0 - 60) by omega)]
    rcases hrt : row.refresh_token with _ | s
    · simp [rtFalsy, hrt] at htruthy
    · have hs : ¬(s = "") := by simpa [rtFalsy, hrt] using htruthy
      simp only []
      rw [if_neg hs]
      rcases hr :
          (if row.provider = "gmail"
            then refresh_access_token_google s (env.refresh row.id)
            else refresh_access_token_ms s (env.refresh row.id)) with e2 | new
      · simp
      · simp only []
        rcases hpe : env.persistErr row.id with _ | e3 <;> simp

/-- Witness for C10: `rowNoRt` with a null expiry raises `no_refresh_token`
though its access token may still be fine. -/
theorem null_expiry_always_refreshes_witness :
    _to_epoch_seconds (PyTime.null) = Except.ok 0 ∧
    rtFalsy ({ rowNoRt with expires_at := PyTime.null } : Row).refresh_token = true ∧
    (get_valid_token baseEnv { rowNoRt with expires_at := PyTime.null }).result =
      Except.error ⟨ExcKind.runtimeError, "no_refresh_token"⟩ :=
  ⟨by decide, by decide,
   ((null_expiry_always_refreshes baseEnv { rowNoRt with expires_at := PyTime.null }
      (by decide)).2.1 (by decide)).1⟩

/-! ## Claim C1: watermark monotonicity -/

/-- One Gmail message-loop step never decreases the running max. -/
theorem gmailMsgStep_maxMs_mono (env : Env) (row : Row) (st : LoopSt) (m : String) :
    st.maxMs ≤ (gmailMsgStep env row st m).1.maxMs := by
  unfold gmailMsgStep
  rcases env.seenErr row.user_id m with _ | e
  · simp only []
    by_cases hseen : (row.user_id, m) ∈ st.seen
    · simp [hseen]
    · rw [if_neg hseen]
      rcases env.fetchG row.id m with e | msg
      · simp only []
        split <;> simp
      · simp only []
        rcases internalMsOf msg.internalDate with e2 | ims
        · simp
        · simp only []
          rcases env.markErr row.user_id m with _ | e3
          · simp only []
            split <;> omega
          · simp only []
            split <;> (simp only []; split <;> omega)
  · simp

/-- One Outlook message-loop step never decreases the running max. -/
theorem outlookMsgStep_maxMs_mono (env : Env) (row : Row) (st : LoopSt) (m : String) :
    st.maxMs ≤ (outlookMsgStep env row st m).1.maxMs := by
  unfold outlookMsgStep
  rcases env.seenErr row.user_id m with _ | e
  · simp only []
    by_cases hseen : (row.user_id, m) ∈ st.seen
    · simp [hseen]
    · rw [if_neg hseen]
      rcases env.fetchO row.id m with e | msg
      · simp only []
        split <;> simp
      · simp only []
        rcases recvMs msg.receivedDateTime with e2 | ms
        · simp
        · simp only []
          rcases env.markErr row.user_id m with _ | e3
          · simp only []
            split <;> omega
          · simp only []
            split <;> (simp only []; split <;> omega)
  · simp

/-- A whole message loop never decreases the running max. -/
theorem runMsgs_maxMs_mono (step : LoopSt → String → LoopSt × Option Exc)
    (hstep : ∀ st m, st.maxMs ≤ (step st m).1.maxMs) :
    ∀ (ids : List String) (st : LoopSt), st.maxMs ≤ (runMsgs step st ids).1.maxMs := by
  intro ids
  induction ids with
  | nil => intro st; simp [runMsgs]
  | cons m ms ih =>
    intro st
    unfold runMsgs
    rcases hs : step st m with ⟨st1, exc⟩
    rcases exc with _ | e
    · simp only []
      calc st.maxMs ≤ st1.maxMs := by
            have h := hstep st m
            rw [hs] at h
            exact h
        _ ≤ _ := ih st1
    · simp only []
      have h := hstep st m
      rw [hs] at h
      exact h

/-- When a Gmail account iteration writes a watermark, the written value is
at least the row's prior watermark. -/
theorem gmailAccount_wm_ge (env : Env) (seen : List (String × String)) (row : Row) :
    ∀ w, (gmailAccount env seen row).wm = some w → row.last_sync_ts.getD 0 ≤ w := by
  intro w h
  unfold gmailAccount at h
  simp only [] at h
  rcases hres : (get_valid_token env row).result with e | tk
  · rw [hres] at h
    simp only [] at h
    by_cases hk : e.kind = ExcKind.runtimeError <;> simp [hk] at h
  · rw [hres] at h
    simp only [] at h
    rcases hfl : fetch_new_message_ids_gmail (env.listResp row.id) with e9 | msg_ids
    · rw [hfl] at h
      simp at h
    · rw [hfl] at h
      simp only [] at h
      rcases hrun : runMsgs (gmailMsgStep env row)
          ⟨seen, row.last_sync_ts.getD 0, 0, (get_valid_token env row).evs⟩
          msg_ids with ⟨st1, exc⟩
      rw [hrun] at h
      rcases exc with _ | e2
      · simp only [] at h
        by_cases hmx : st1.maxMs ≠ 0
        · rw [if_pos hmx] at h
          rcases hup : env.updateErr row.id with _ | e3
          · rw [hup] at h
            simp only [] at h
            have hw : st1.maxMs = w := Option.some.inj h
            have hmono := runMsgs_maxMs_mono (gmailMsgStep env row)
              (gmailMsgStep_maxMs_mono env row)
              msg_ids
              ⟨seen, row.last_sync_ts.getD 0, 0, (get_valid_token env row).evs⟩
            rw [hrun] at hmono
            simpa [hw] using hmono
          · rw [hup] at h
            simp at h
        · rw [if_neg hmx] at h
          simp at h
      · simp at h

/-- When an Outlook account iteration writes a watermark, the written value
is at least the row's prior watermark. -/
theorem outlookAccount_wm_ge (env : Env) (seen : List (String × String)) (row : Row) :
    ∀ w, (outlookAccount env seen row).wm = some w → row.last_sync_ts.getD 0 ≤ w := by
  intro w h
  unfold outlookAccount at h
  simp only [] at h
  rcases hres : (get_valid_token env row).result with e | tk
  · rw [hres] at h
    simp only [] at h
    by_cases hk : e.kind = ExcKind.runtimeError <;> simp [hk] at h
  · rw [hres] at h
    simp only [] at h
    rcases hfl : fetch_new_message_ids_outlook (env.listResp row.id) with e9 | msg_ids
    · rw [hfl] at h
      simp at h
    · rw [hfl] at h
      simp only [] at h
      rcases hrun : runMsgs (outlookMsgStep env row)
          ⟨seen, row.last_sync_ts.getD 0, 0, (get_valid_token env row).evs⟩
          msg_ids with ⟨st1, exc⟩
      rw [hrun] at h
      rcases exc with _ | e2
      · simp only [] at h
        by_cases hmx : st1.maxMs ≠ 0
        · rw [if_pos hmx] at h
          rcases hup : env.updateErr row.id with _ | e3
          · rw [hup] at h
            simp only [] at h
            have hw : st1.maxMs = w := Option.some.inj h
            have hmono := runMsgs_maxMs_mono (outlookMsgStep env row)
              (outlookMsgStep_maxMs_mono env row)
              msg_ids
              ⟨seen, row.last_sync_ts.getD 0, 0, (get_valid_token env row).evs⟩
            rw [hrun] at hmono
            simpa [hw] using hmono
          · rw [hup] at h
            simp at h
        · rw [if_neg hmx] at h
          simp at h
      · simp at h

/-- One Gmail pass never moves a row's stored watermark backward. -/
theorem accountAfterGmail_mono (env : Env) (row : Row) :
    row.last_sync_ts.getD 0 ≤ (accountAfterGmail env row).last_sync_ts.getD 0 := by
  unfold accountAfterGmail
  rcases hwm : (gmailAccount env env.seen0 row).wm with _ | w
  · simp
  · simp only []
    simpa using gmailAccount_wm_ge env env.seen0 row w hwm

/-- One Outlook pass never moves a row's stored watermark backward. -/
theorem accountAfterOutlook_mono (env : Env) (row : Row) :
    row.last_sync_ts.getD 0 ≤ (accountAfterOutlook env row).last_sync_ts.getD 0 := by
  unfold accountAfterOutlook
  rcases hwm : (outlookAccount env env.seen0 row).wm with _ | w
  · simp
  · simp only []
    simpa using outlookAccount_wm_ge env env.seen0 row w hwm

/-- Claim C1: over every sequence of poll passes (`gmail_poll` or
`outlook_poll` iterations, under arbitrary environments — including failing
token refreshes, failing fetches, failing store writes and partial passes
aborted by uncaught exceptions), an account's stored `last_sync_ts`
watermark is non-decreasing: each pass either leaves it unchanged or
replaces it with the loop's running maximum, which starts at the prior
watermark and only ever grows to observed message timestamps above it. -/
theorem watermark_monotone (ps : List Pass) (row : Row) :
    row.last_sync_ts.getD 0 ≤ (runPasses ps row).last_sync_ts.getD 0 := by
  induction ps generalizing row with
  | nil => simp [runPasses]
  | cons p rest ih =>
    cases p with
    | gmail e =>
      calc row.last_sync_ts.getD 0 ≤ (accountAfterGmail e row).last_sync_ts.getD 0 :=
            accountAfterGmail_mono e row
        _ ≤ _ := ih (accountAfterGmail e row)
    | outlook e =>
      calc row.last_sync_ts.getD 0 ≤ (accountAfterOutlook e row).last_sync_ts.getD 0 :=
            accountAfterOutlook_mono e row
        _ ≤ _ := ih (accountAfterOutlook e row)

/-! ## Claim C2: an already-seen message is never re-fetched or re-pushed -/

/-- A message pair other than `(u, m)` never produces an event touching
`(u, m)`. -/
theorem beq_pair_false (u m uid m2 : String) (hne : ¬(uid = u ∧ m2 = m)) :
    (uid == u && m2 == m) = false := by
  rcases Decidable.em (uid = u) with h1 | h1
  · rcases Decidable.em (m2 = m) with h2 | h2
    · exact absurd ⟨h1, h2⟩ hne
    · simp [h2]
  · simp [h1]

/-- Sink events for a different message pair do not touch `(u, m)`. -/
theorem push_evs_clean (u m : String) (url : Option String) (o : PushOutcome)
    (uid p m2 : String) (hne : ¬(uid = u ∧ m2 = m)) :
    ∀ ev ∈ push_to_n8n url o uid p m2, evTouches u m ev = false := by
  cases url with
  | none => simp [push_to_n8n]
  | some _ =>
    intro ev hev
    rcases List.mem_singleton.mp hev with rfl
    exact beq_pair_false u m uid m2 hne

/-- Cleanliness is preserved under event-list append. -/
theorem clean_append (u m : String) (evs1 evs2 : List Ev)
    (h1 : ∀ ev ∈ evs1, evTouches u m ev = false)
    (h2 : ∀ ev ∈ evs2, evTouches u m ev = false) :
    ∀ ev ∈ evs1 ++ evs2, evTouches u m ev = false := by
  intro ev hev
  rcases List.mem_append.mp hev with h | h
  exacts [h1 ev h, h2 ev h]

/-- Helper: `get_valid_token` only emits refresh events, which never touch a
message. -/
theorem tok_evs_clean (env : Env) (row : Row) (u m : String) :
    ∀ ev ∈ (get_valid_token env row).evs, evTouches u m ev = false := by
  rcases get_valid_token_evs env row with h | h <;> rw [h] <;> simp [evTouches]

/-- One Gmail message-loop step keeps a ledger-resident pair resident and
adds no event touching it: the `already_seen` check fires before any fetch,
push, or mark. -/
theorem gmailMsgStep_protects (env : Env) (row : Row) (u m : String)
    (st : LoopSt) (m2 : String)
    (hmem : (u, m) ∈ st.seen)
    (hclean : ∀ ev ∈ st.evs, evTouches u m ev = false) :
    (u, m) ∈ (gmailMsgStep env row st m2).1.seen ∧
    ∀ ev ∈ (gmailMsgStep env row st m2).1.evs, evTouches u m ev = false := by
  unfold gmailMsgStep
  rcases env.seenErr row.user_id m2 with _ | e
  · simp only []
    by_cases hseen : (row.user_id, m2) ∈ st.seen
    · rw [if_pos hseen]
      exact ⟨hmem, hclean⟩
    · rw [if_neg hseen]
      have hne : ¬(row.user_id = u ∧ m2 = m) := by
        rintro ⟨h1, h2⟩
        exact hseen (h1 ▸ h2 ▸ hmem)
      have hfetch : evTouches u m (Ev.fetchCall row.user_id m2) = false :=
        beq_pair_false u m row.user_id m2 hne
      have hmark : evTouches u m (Ev.markSeenCall row.user_id m2) = false :=
        beq_pair_false u m row.user_id m2 hne
      rcases env.fetchG row.id m2 with e | msg
      · simp only []
        have hcl : ∀ ev ∈ st.evs ++ [Ev.fetchCall row.user_id m2],
            evTouches u m ev = false :=
          clean_append u m _ _ hclean (by simpa using hfetch)
        split <;> exact ⟨hmem, hcl⟩
      · simp only []
        rcases internalMsOf msg.internalDate with e9 | ims
        · simp only []
          exact ⟨hmem, clean_append u m _ _ hclean (by simpa using hfetch)⟩
        · simp only []
          have hpevs := push_evs_clean u m env.webhookUrl (env.pushRes row.id m2)
            row.user_id "gmail" m2 hne
          rcases env.markErr row.user_id m2 with _ | e2
          · exact ⟨List.mem_append.mpr (Or.inl hmem),
              clean_append u m _ _
                (clean_append u m _ _
                  (clean_append u m _ _ hclean (by simpa using hfetch)) hpevs)
                (by simpa using hmark)⟩
          · simp only []
            have hcl : ∀ ev ∈ st.evs ++ [Ev.fetchCall row.user_id m2] ++
                push_to_n8n env.webhookUrl (env.pushRes row.id m2) row.user_id "gmail" m2,
                evTouches u m ev = false :=
              clean_append u m _ _
                (clean_append u m _ _ hclean (by simpa using hfetch)) hpevs
            split <;> exact ⟨hmem, hcl⟩
  · exact ⟨hmem, hclean⟩

/-- One Outlook message-loop step keeps a ledger-resident pair resident and
adds no event touching it. -/
theorem outlookMsgStep_protects (env : Env) (row : Row) (u m : String)
    (st : LoopSt) (m2 : String)
    (hmem : (u, m) ∈ st.seen)
    (hclean : ∀ ev ∈ st.evs, evTouches u m ev = false) :
    (u, m) ∈ (outlookMsgStep env row st m2).1.seen ∧
    ∀ ev ∈ (outlookMsgStep env row st m2).1.evs, evTouches u m ev = false := by
  unfold outlookMsgStep
  rcases env.seenErr row.user_id m2 with _ | e
  · simp only []
    by_cases hseen : (row.user_id, m2) ∈ st.seen
    · rw [if_pos hseen]
      exact ⟨hmem, hclean⟩
    · rw [if_neg hseen]
      have hne : ¬(row.user_id = u ∧ m2 = m) := by
        rintro ⟨h1, h2⟩
        exact hseen (h1 ▸ h2 ▸ hmem)
      have hfetch : evTouches u m (Ev.fetchCall row.user_id m2) = false :=
        beq_pair_false u m row.user_id m2 hne
      have hmark : evTouches u m (Ev.markSeenCall row.user_id m2) = false :=
        beq_pair_false u m row.user_id m2 hne
      rcases env.fetchO row.id m2 with e | msg
      · simp only []
        have hcl : ∀ ev ∈ st.evs ++ [Ev.fetchCall row.user_id m2],
            evTouches u m ev = false :=
          clean_append u m _ _ hclean (by simpa using hfetch)
        split <;> exact ⟨hmem, hcl⟩
      · simp only []
        rcases recvMs msg.receivedDateTime with e2 | ms
        · simp only []
          exact ⟨hmem, clean_append u m _ _ hclean (by simpa using hfetch)⟩
        · simp only []
          have hpevs := push_evs_clean u m env.webhookUrl (env.pushRes row.id m2)
            row.user_id "outlook" m2 hne
          rcases env.markErr row.user_id m2 with _ | e3
          · exact ⟨List.mem_append.mpr (Or.inl hmem),
              clean_append u m _ _
                (clean_append u m _ _
                  (clean_append u m _ _ hclean (by simpa using hfetch)) hpevs)
                (by simpa using hmark)⟩
          · simp only []
            have hcl : ∀ ev ∈ st.evs ++ [Ev.fetchCall row.user_id m2] ++
                push_to_n8n env.webhookUrl (env.pushRes row.id m2) row.user_id "outlook" m2,
                evTouches u m ev = false :=
              clean_append u m _ _
                (clean_append u m _ _ hclean (by simpa using hfetch)) hpevs
            split <;> exact ⟨hmem, hcl⟩
  · exact ⟨hmem, hclean⟩

/-- A whole message loop keeps a ledger-resident pair resident and adds no
event touching it. -/
theorem runMsgs_protects (step : LoopSt → String → LoopSt × Option Exc) (u m : String)
    (hstep : ∀ st m2, (u, m) ∈ st.seen →
      (∀ ev ∈ st.evs, evTouches u m ev = false) →
      (u, m) ∈ (step st m2).1.seen ∧
      ∀ ev ∈ (step st m2).1.evs, evTouches u m ev = false) :
    ∀ (ids : List String) (st : LoopSt), (u, m) ∈ st.seen →
      (∀ ev ∈ st.evs, evTouches u m ev = false) →
      (u, m) ∈ (runMsgs step st ids).1.seen ∧
      ∀ ev ∈ (runMsgs step st ids).1.evs, evTouches u m ev = false := by
  intro ids
  induction ids with
  | nil =>
    intro st h1 h2
    exact ⟨h1, h2⟩
  | cons m2 ms ih =>
    intro st h1 h2
    unfold runMsgs
    rcases hs : step st m2 with ⟨st1, exc⟩
    have hh := hstep st m2 h1 h2
    rw [hs] at hh
    rcases exc with _ | e
    · simp only []
      exact ih st1 hh.1 hh.2
    · simp only []
      exact hh

/-- One Gmail account iteration keeps a ledger-resident pair resident and
adds no event touching it. -/
theorem gmailAccount_protects (env : Env) (row : Row) (u m : String)
    (seen : List (String × String)) (hmem : (u, m) ∈ seen) :
    (u, m) ∈ (gmailAccount env seen row).seen ∧
    ∀ ev ∈ (gmailAccount env seen row).evs, evTouches u m ev = false := by
  unfold gmailAccount
  simp only []
  rcases hres : (get_valid_token env row).result with e | tk
  · simp only []
    split <;> exact ⟨hmem, tok_evs_clean env row u m⟩
  · simp only []
    rcases hfl : fetch_new_message_ids_gmail (env.listResp row.id) with e9 | msg_ids
    · simp only []
      exact ⟨hmem, tok_evs_clean env row u m⟩
    · simp only []
      rcases hrun : runMsgs (gmailMsgStep env row)
          ⟨seen, row.last_sync_ts.getD 0, 0, (get_valid_token env row).evs⟩
          msg_ids with ⟨st1, exc⟩
      have hh := runMsgs_protects (gmailMsgStep env row) u m
        (fun st m2 => gmailMsgStep_protects env row u m st m2)
        msg_ids
        ⟨seen, row.last_sync_ts.getD 0, 0, (get_valid_token env row).evs⟩
        hmem (tok_evs_clean env row u m)
      rw [hrun] at hh
      rcases exc with _ | e2
      · simp only []
        by_cases hmx : st1.maxMs ≠ 0
        · rw [if_pos hmx]
          rcases env.updateErr row.id with _ | e3
          · simp only []
            exact ⟨hh.1, clean_append u m _ _ hh.2 (by simp [evTouches])⟩
          · exact ⟨hh.1, hh.2⟩
        · rw [if_neg hmx]
          exact ⟨hh.1, hh.2⟩
      · simp only []
        exact hh

/-- One Outlook account iteration keeps a ledger-resident pair resident and
adds no event touching it. -/
theorem outlookAccount_protects (env : Env) (row : Row) (u m : String)
    (seen : List (String × String)) (hmem : (u, m) ∈ seen) :
    (u, m) ∈ (outlookAccount env seen row).seen ∧
    ∀ ev ∈ (outlookAccount env seen row).evs, evTouches u m ev = false := by
  unfold outlookAccount
  simp only []
  rcases hres : (get_valid_token env row).result with e | tk
  · simp only []
    split <;> exact ⟨hmem, tok_evs_clean env row u m⟩
  · simp only []
    rcases hfl : fetch_new_message_ids_outlook (env.listResp row.id) with e9 | msg_ids
    · simp only []
      exact ⟨hmem, tok_evs_clean env row u m⟩
    · simp only []
      rcases hrun : runMsgs (outlookMsgStep env row)
          ⟨seen, row.last_sync_ts.getD 0, 0, (get_valid_token env row).evs⟩
          msg_ids with ⟨st1, exc⟩
      have hh := runMsgs_protects (outlookMsgStep env row) u m
        (fun st m2 => outlookMsgStep_protects env row u m st m2)
        msg_ids
        ⟨seen, row.last_sync_ts.getD 0, 0, (get_valid_token env row).evs⟩
        hmem (tok_evs_clean env row u m)
      rw [hrun] at hh
      rcases exc with _ | e2
      · simp only []
        by_cases hmx : st1.maxMs ≠ 0
        · rw [if_pos hmx]
          rcases env.updateErr row.id with _ | e3
          · simp only []
            exact ⟨hh.1, clean_append u m _ _ hh.2 (by simp [evTouches])⟩
          · exact ⟨hh.1, hh.2⟩
        · rw [if_neg hmx]
          exact ⟨hh.1, hh.2⟩
      · simp only []
        exact hh

/-- The account loop emits no event touching a pair resident in its initial
ledger. -/
theorem runRows_protects (acc : List (String × String) → Row → AccResult) (u m : String)
    (hacc : ∀ seen row, (u, m) ∈ seen →
      (u, m) ∈ (acc seen row).seen ∧
      ∀ ev ∈ (acc seen row).evs, evTouches u m ev = false) :
    ∀ (rows : List Row) (seen : List (String × String)), (u, m) ∈ seen →
      ∀ ev ∈ (runRows acc seen rows).2.1, evTouches u m ev = false := by
  intro rows
  induction rows with
  | nil =>
    intro seen h
    simp [runRows]
  | cons row rest ih =>
    intro seen h
    unfold runRows
    simp only []
    rcases hexc : (acc seen row).exc with _ | e
    · simp only []
      exact clean_append u m _ _ (hacc seen row h).2
        (ih (acc seen row).seen (hacc seen row h).1)
    · simp only []
      exact (hacc seen row h).2

/-! ### Processed counter = number of ledger marks -/

/-- Sink events contain no ledger mark. -/
theorem countMark_push (url : Option String) (o : PushOutcome)
    (uid p m2 : String) : countMark (push_to_n8n url o uid p m2) = 0 := by
  cases url <;> simp [push_to_n8n, countMark]

/-- Additivity of `countMark` over append. -/
theorem countMark_append (a b : List Ev) :
    countMark (a ++ b) = countMark a + countMark b := by
  simp [countMark]

/-- One Gmail message-loop step appends events and bumps `processed` by
exactly the ledger marks among them. -/
theorem gmailMsgStep_count (env : Env) (row : Row) (st : LoopSt) (m2 : String) :
    ∃ new, (gmailMsgStep env row st m2).1.evs = st.evs ++ new ∧
      (gmailMsgStep env row st m2).1.processed = st.processed + countMark new := by
  unfold gmailMsgStep
  rcases env.seenErr row.user_id m2 with _ | e
  · simp only []
    by_cases hseen : (row.user_id, m2) ∈ st.seen
    · rw [if_pos hseen]
      exact ⟨[], by simp, by simp [countMark]⟩
    · rw [if_neg hseen]
      rcases env.fetchG row.id m2 with e | msg
      · simp only []
        refine ⟨[Ev.fetchCall row.user_id m2], ?_⟩
        split <;> simp [countMark]
      · simp only []
        rcases internalMsOf msg.internalDate with e9 | ims
        · exact ⟨[Ev.fetchCall row.user_id m2], by simp, by simp [countMark]⟩
        · simp only []
          rcases env.markErr row.user_id m2 with _ | e2
          · refine ⟨[Ev.fetchCall row.user_id m2] ++
              push_to_n8n env.webhookUrl (env.pushRes row.id m2) row.user_id "gmail" m2 ++
              [Ev.markSeenCall row.user_id m2], by simp, ?_⟩
            rw [countMark_append, countMark_append, countMark_push]
            simp [countMark]
          · simp only []
            refine ⟨[Ev.fetchCall row.user_id m2] ++
              push_to_n8n env.webhookUrl (env.pushRes row.id m2) row.user_id "gmail" m2, ?_⟩
            rw [countMark_append, countMark_push]
            split <;> simp [countMark]
  · exact ⟨[], by simp, by simp [countMark]⟩

/-- One Outlook message-loop step appends events and bumps `processed` by
exactly the ledger marks among them. -/
theorem outlookMsgStep_count (env : Env) (row : Row) (st : LoopSt) (m2 : String) :
    ∃ new, (outlookMsgStep env row st m2).1.evs = st.evs ++ new ∧
      (outlookMsgStep env row st m2).1.processed = st.processed + countMark new := by
  unfold outlookMsgStep
  rcases env.seenErr row.user_id m2 with _ | e
  · simp only []
    by_cases hseen : (row.user_id, m2) ∈ st.seen
    · rw [if_pos hseen]
      exact ⟨[], by simp, by simp [countMark]⟩
    · rw [if_neg hseen]
      rcases env.fetchO row.id m2 with e | msg
      · simp only []
        refine ⟨[Ev.fetchCall row.user_id m2], ?_⟩
        split <;> simp [countMark]
      · simp only []
        rcases recvMs msg.receivedDateTime with e2 | ms
        · exact ⟨[Ev.fetchCall row.user_id m2], by simp, by simp [countMark]⟩
        · simp only []
          rcases env.markErr row.user_id m2 with _ | e3
          · refine ⟨[Ev.fetchCall row.user_id m2] ++
              push_to_n8n env.webhookUrl (env.pushRes row.id m2) row.user_id "outlook" m2 ++
              [Ev.markSeenCall row.user_id m2], by simp, ?_⟩
            rw [countMark_append, countMark_append, countMark_push]
            simp [countMark]
          · simp only []
            refine ⟨[Ev.fetchCall row.user_id m2] ++
              push_to_n8n env.webhookUrl (env.pushRes row.id m2) row.user_id "outlook" m2, ?_⟩
            rw [countMark_append, countMark_push]
            split <;> simp [countMark]
  · exact ⟨[], by simp, by simp [countMark]⟩

/-- A whole message loop appends events and bumps `processed` by exactly the
ledger marks among them. -/
theorem runMsgs_count (step : LoopSt → String → LoopSt × Option Exc)
    (hstep : ∀ st m2, ∃ new, (step st m2).1.evs = st.evs ++ new ∧
      (step st m2).1.processed = st.processed + countMark new) :
    ∀ (ids : List String) (st : LoopSt),
      ∃ new, (runMsgs step st ids).1.evs = st.evs ++ new ∧
        (runMsgs step st ids).1.processed = st.processed + countMark new := by
  intro ids
  induction ids with
  | nil =>
    intro st
    exact ⟨[], by simp [runMsgs], by simp [runMsgs, countMark]⟩
  | cons m2 ms ih =>
    intro st
    unfold runMsgs
    rcases hs : step st m2 with ⟨st1, exc⟩
    have h1 := hstep st m2
    rw [hs] at h1
    rcases h1 with ⟨new1, he1, hp1⟩
    rcases exc with _ | e
    · simp only []
      rcases ih st1 with ⟨new2, he2, hp2⟩
      exact ⟨new1 ++ new2,
        by rw [he2, he1, List.append_assoc],
        by rw [hp2, hp1, countMark_append]; omega⟩
    · simp only []
      exact ⟨new1, he1, hp1⟩

/-- One account iteration's processed delta equals the ledger marks among its
events (Gmail). -/
theorem gmailAccount_count (env : Env) (seen : List (String × String)) (row : Row) :
    (gmailAccount env seen row).processedDelta =
      countMark ((gmailAccount env seen row).evs) := by
  have htok : countMark ((get_valid_token env row).evs) = 0 := by
    rcases get_valid_token_evs env row with h | h <;> rw [h] <;> simp [countMark]
  unfold gmailAccount
  simp only []
  rcases hres : (get_valid_token env row).result with e | tk
  · simp only []
    split <;> simpa using htok.symm
  · simp only []
    rcases hfl : fetch_new_message_ids_gmail (env.listResp row.id) with e9 | msg_ids
    · simp only []
      simpa using htok.symm
    · simp only []
      rcases hrun : runMsgs (gmailMsgStep env row)
          ⟨seen, row.last_sync_ts.getD 0, 0, (get_valid_token env row).evs⟩
          msg_ids with ⟨st1, exc⟩
      have hc := runMsgs_count (gmailMsgStep env row)
        (fun st m2 => gmailMsgStep_count env row st m2)
        msg_ids
        ⟨seen, row.last_sync_ts.getD 0, 0, (get_valid_token env row).evs⟩
      rw [hrun] at hc
      rcases hc with ⟨new, he, hp⟩
      have hcount : st1.processed = countMark st1.evs := by
        rw [hp, he, countMark_append, htok]
      rcases exc with _ | e2
      · simp only []
        by_cases hmx : st1.maxMs ≠ 0
        · rw [if_pos hmx]
          rcases env.updateErr row.id with _ | e3
          · simp only []
            rw [hcount, countMark_append]
            simp [countMark]
          · exact hcount
        · rw [if_neg hmx]
          exact hcount
      · simp only []
        exact hcount

/-- One account iteration's processed delta equals the ledger marks among its
events (Outlook). -/
theorem outlookAccount_count (env : Env) (seen : List (String × String)) (row : Row) :
    (outlookAccount env seen row).processedDelta =
      countMark ((outlookAccount env seen row).evs) := by
  have htok : countMark ((get_valid_token env row).evs) = 0 := by
    rcases get_valid_token_evs env row with h | h <;> rw [h] <;> simp [countMark]
  unfold outlookAccount
  simp only []
  rcases hres : (get_valid_token env row).result with e | tk
  · simp only []
    split <;> simpa using htok.symm
  · simp only []
    rcases hfl : fetch_new_message_ids_outlook (env.listResp row.id) with e9 | msg_ids
    · simp only []
      simpa using htok.symm
    · simp only []
      rcases hrun : runMsgs (outlookMsgStep env row)
          ⟨seen, row.last_sync_ts.getD 0, 0, (get_valid_token env row).evs⟩
          msg_ids with ⟨st1, exc⟩
      have hc := runMsgs_count (outlookMsgStep env row)
        (fun st m2 => outlookMsgStep_count env row st m2)
        msg_ids
        ⟨seen, row.last_sync_ts.getD 0, 0, (get_valid_token env row).evs⟩
      rw [hrun] at hc
      rcases hc with ⟨new, he, hp⟩
      have hcount : st1.processed = countMark st1.evs := by
        rw [hp, he, countMark_append, htok]
      rcases exc with _ | e2
      · simp only []
        by_cases hmx : st1.maxMs ≠ 0
        · rw [if_pos hmx]
          rcases env.updateErr row.id with _ | e3
          · simp only []
            rw [hcount, countMark_append]
            simp [countMark]
          · exact hcount
        · rw [if_neg hmx]
          exact hcount
      · simp only []
        exact hcount

/-- The account loop's total equals the ledger marks among its events. -/
theorem runRows_count (acc : List (String × String) → Row → AccResult)
    (hacc : ∀ seen row, (acc seen row).processedDelta = countMark ((acc seen row).evs)) :
    ∀ (rows : List Row) (seen : List (String × String)),
      (runRows acc seen rows).1 = countMark (runRows acc seen rows).2.1 := by
  intro rows
  induction rows with
  | nil =>
    intro seen
    simp [runRows, countMark]
  | cons row rest ih =>
    intro seen
    unfold runRows
    simp only []
    rcases hexc : (acc seen row).exc with _ | e
    · simp only []
      rw [countMark_append, hacc seen row, ih (acc seen row).seen]
    · simp only []
      exact hacc seen row

/-- The events and count of a Gmail pass on a successful select are those of
its account loop. -/
theorem gmail_poll_ok_shape (env : Env) (rows : List Row) :
    (gmail_poll env (Except.ok rows)).evs =
      (runRows (gmailAccount env) env.seen0 rows).2.1 ∧
    (∀ n, (gmail_poll env (Except.ok rows)).response = PollResponse.ok n →
      n = (runRows (gmailAccount env) env.seen0 rows).1) := by
  unfold gmail_poll
  simp only []
  rcases hr : runRows (gmailAccount env) env.seen0 rows with ⟨n1, evs1, exc1⟩
  rcases exc1 with _ | e1
  · simp only []
    exact ⟨trivial, fun n h => (PollResponse.ok.inj h).symm⟩
  · simp only []
    exact ⟨trivial, fun n h => PollResponse.noConfusion h⟩

/-- The events and count of an Outlook pass on a successful select are those
of its account loop. -/
theorem outlook_poll_ok_shape (env : Env) (rows : List Row) :
    (outlook_poll env (Except.ok rows)).evs =
      (runRows (outlookAccount env) env.seen0 rows).2.1 ∧
    (∀ n, (outlook_poll env (Except.ok rows)).response = PollResponse.ok n →
      n = (runRows (outlookAccount env) env.seen0 rows).1) := by
  unfold outlook_poll
  simp only []
  rcases hr : runRows (outlookAccount env) env.seen0 rows with ⟨n1, evs1, exc1⟩
  rcases exc1 with _ | e1
  · simp only []
    exact ⟨trivial, fun n h => (PollResponse.ok.inj h).symm⟩
  · simp only []
    exact ⟨trivial, fun n h => PollResponse.noConfusion h⟩

/-- Claim C2: if `(u, m)` is already present in the Seen-Message ledger when
a poll pass starts, then for both providers the pass performs no fetch, no
sink push, and no ledger re-mark for `(u, m)` — the `already_seen` check
short-circuits before any of those — and whenever a pass returns
`{"status": "ok", "processed": n}`, `n` counts exactly the successful
`mark_seen` events of the pass, so the already-seen message is not counted
as processed either. -/
theorem seen_message_never_refetched (env : Env) (sel : Except Exc (List Row))
    (u m : String) (hmem : (u, m) ∈ env.seen0) :
    (∀ ev ∈ (gmail_poll env sel).evs, evTouches u m ev = false) ∧
    (∀ ev ∈ (outlook_poll env sel).evs, evTouches u m ev = false) ∧
    (∀ n, (gmail_poll env sel).response = PollResponse.ok n →
      n = countMark (gmail_poll env sel).evs) ∧
    (∀ n, (outlook_poll env sel).response = PollResponse.ok n →
      n = countMark (outlook_poll env sel).evs) := by
  rcases sel with e | rows
  · refine ⟨by simp [gmail_poll], by simp [outlook_poll], ?_, ?_⟩ <;>
      intro n h <;> simp [gmail_poll, outlook_poll] at h
  · have hg := runRows_protects (gmailAccount env) u m
      (fun seen row h => gmailAccount_protects env row u m seen h) rows env.seen0 hmem
    have ho := runRows_protects (outlookAccount env) u m
      (fun seen row h => outlookAccount_protects env row u m seen h) rows env.seen0 hmem
    have hgc := runRows_count (gmailAccount env)
      (fun seen row => gmailAccount_count env seen row) rows env.seen0
    have hoc := runRows_count (outlookAccount env)
      (fun seen row => outlookAccount_count env seen row) rows env.seen0
    refine ⟨?_, ?_, ?_, ?_⟩
    · rw [(gmail_poll_ok_shape env rows).1]
      exact hg
    · rw [(outlook_poll_ok_shape env rows).1]
      exact ho
    · intro n h
      rw [(gmail_poll_ok_shape env rows).1, (gmail_poll_ok_shape env rows).2 n h]
      exact hgc
    · intro n h
      rw [(outlook_poll_ok_shape env rows).1, (outlook_poll_ok_shape env rows).2 n h]
      exact hoc

/-- A concrete environment whose ledger already holds `("u1", "m1")` while
the provider still lists `m1`. -/
def envSeen : Env :=
  { baseEnv with
    seen0 := [("u1", "m1")],
    listResp := fun _ => Except.ok ⟨200, ["m1"]⟩,
    fetchG := fun _ _ => Except.ok ⟨JStr.str "5000"⟩,
    fetchO := fun _ _ => Except.ok ⟨some "2024-01-02T03:04:05Z"⟩,
    webhookUrl := some "hook" }

/-- Witness for C2: with `("u1", "m1")` pre-seen, the pass emits no event
touching it. -/
theorem seen_message_never_refetched_witness :
    ("u1", "m1") ∈ envSeen.seen0 ∧
    (∀ ev ∈ (gmail_poll envSeen (Except.ok [rowFresh])).evs,
      evTouches "u1" "m1" ev = false) ∧
    (∀ ev ∈ (outlook_poll envSeen (Except.ok [rowFresh])).evs,
      evTouches "u1" "m1" ev = false) :=
  ⟨by decide,
   (seen_message_never_refetched envSeen (Except.ok [rowFresh]) "u1" "m1" (by decide)).1,
   (seen_message_never_refetched envSeen (Except.ok [rowFresh]) "u1" "m1" (by decide)).2.1⟩

/-! ## Claim C7: list failures are hidden -/

/-- Claim C7: for both provider mail clients, a list call whose HTTP response
is not a 2xx success returns an empty message-id list rather than raising,
and a successful (200) response yields exactly the ids the provider
returned. -/
theorem list_failure_yields_empty (r : ListResp) :
    (¬(200 ≤ r.status ∧ r.status < 300) →
      fetch_new_message_ids_gmail (Except.ok r) = Except.ok [] ∧
      fetch_new_message_ids_outlook (Except.ok r) = Except.ok []) ∧
    (r.status = 200 →
      fetch_new_message_ids_gmail (Except.ok r) = Except.ok r.ids ∧
      fetch_new_message_ids_outlook (Except.ok r) = Except.ok r.ids) := by
  constructor
  · intro h
    have h200 : r.status ≠ 200 := by omega
    simp [fetch_new_message_ids_gmail, fetch_new_message_ids_outlook, h200]
  · intro h
    simp [fetch_new_message_ids_gmail, fetch_new_message_ids_outlook, h]

/-- Witness for C7 at a concrete 500 response. -/
theorem list_failure_yields_empty_witness :
    ¬(200 ≤ (500 : Nat) ∧ (500 : Nat) < 300) ∧
    (fetch_new_message_ids_gmail (Except.ok ⟨500, ["a"]⟩) = Except.ok [] ∧
     fetch_new_message_ids_outlook (Except.ok ⟨500, ["a"]⟩) = Except.ok []) :=
  ⟨by decide, (list_failure_yields_empty ⟨500, ["a"]⟩).1 (by decide)⟩

/-! ## Claim C9: `_to_epoch_seconds` totality -/

/-- Counterexample to C9 as stated: the parser is not total on strings — on
the unparseable string `"hello"` the regex does not match, the raw string is
handed to `fromisoformat`, and the resulting `ValueError` propagates instead
of a `0` fallback. -/
theorem to_epoch_seconds_total_cex :
    _to_epoch_seconds (PyTime.str "hello") =
      Except.error ⟨ExcKind.otherError, "ValueError"⟩ := by decide

/-- Claim C9 as amended: `_to_epoch_seconds` is total on `None`, `datetime`,
and non-string non-datetime inputs (returning the `0` fallback for `None` and
for other-typed values), and on strings it accepts fractional seconds
(padded or truncated to microseconds), a trailing `Z`, and space-vs-`T`
separators — all three spellings below parse to the same instant — but an
unparseable string raises `ValueError` rather than returning `0`. -/
theorem to_epoch_seconds_amended :
    _to_epoch_seconds PyTime.null = Except.ok 0 ∧
    _to_epoch_seconds PyTime.other = Except.ok 0 ∧
    (∀ d : PyDateTime, ∃ n : Int, _to_epoch_seconds (PyTime.dt d) = Except.ok n) ∧
    _to_epoch_seconds (PyTime.str "2024-01-02 03:04:05Z") = Except.ok 1704164645 ∧
    _to_epoch_seconds (PyTime.str "2024-01-02T03:04:05.25+00:00") = Except.ok 1704164645 ∧
    _to_epoch_seconds (PyTime.str "2024-01-02T03:04:05.123456789+00:00") =
      Except.ok 1704164645 :=
  ⟨by decide, by decide, fun d => ⟨dtEpochInt d, rfl⟩, by decide, by decide, by decide⟩
